import Mathlib

/-!
Verification development for the ATS analysis and scoring engine of the
jrn_resume repository.  The Python services, utilities and repository code
under `app/` are shallowly embedded below: pure functions become Lean
functions, Python floats are modelled by exact rationals (`ℚ`), Python
`int(x)` truncation toward zero is `pyTrunc`, Python sets of strings are
`Finset String`, and fallible code returns `Except`.
-/

namespace ATS

/-- Python `int(x)` on a float truncates toward zero. -/
def pyTrunc (q : ℚ) : ℤ := if q < 0 then ⌈q⌉ else ⌊q⌋

/-- Python's `str.lower()` for ASCII text: lowercase every character. -/
def pyLower (s : String) : String :=
  String.mk (s.data.map Char.toLower)

/-- Whitespace characters recognised by Python's `str.split()` / `\s`. -/
def pyIsSpace (c : Char) : Bool :=
  c = ' ' || c = '\t' || c = '\n' || c = '\r' || c = '\x0b' || c = '\x0c'

/-- An ASCII "word" character in the sense of the regex class `\w`. -/
def isWordChar (c : Char) : Bool :=
  c.isAlpha || c.isDigit || c = '_'

/-- Split a character list into the maximal runs of characters on which the
predicate is false (the accumulator holds the current run, reversed). -/
def splitRunsAux (p : Char → Bool) : List Char → List Char → List String
  | [], cur => if cur = [] then [] else [String.mk cur.reverse]
  | c :: rest, cur =>
    if p c then
      (if cur = [] then [] else [String.mk cur.reverse]) ++ splitRunsAux p rest []
    else splitRunsAux p rest (c :: cur)

/-- Maximal delimiter-free runs of a string's characters. -/
def splitRuns (p : Char → Bool) (s : String) : List String :=
  splitRunsAux p s.data []

/-- `text.split()` in Python: split on whitespace runs, dropping empties. -/
def pyWords (s : String) : List String :=
  splitRuns pyIsSpace s

/-- Python's `str.strip()`: remove leading and trailing whitespace. -/
def pyStrip (s : String) : String :=
  String.mk (((s.data.dropWhile pyIsSpace).reverse.dropWhile pyIsSpace).reverse)

/-- `sep.join(parts)`. -/
def joinWith (sep : String) : List String → String
  | [] => ""
  | [x] => x
  | x :: y :: rest => x ++ sep ++ joinWith sep (y :: rest)

/-- Does `needle` occur as a contiguous sublist of `hay`? -/
def listInfix (needle : List Char) : List Char → Bool
  | [] => needle.isEmpty
  | c :: rest => needle.isPrefixOf (c :: rest) || listInfix needle rest

/-- Substring containment, Python's `needle in hay` on strings. -/
def strContains (hay needle : String) : Bool :=
  listInfix needle.data hay.data

/-- `ATSKeywordMatcher.extract_keywords` first normalises its input with
`re.sub(r'[^\w\s-]', ' ', text.lower())`: every character that is not a word
character, whitespace or a hyphen becomes a space. -/
def cleanChars (text : String) : String :=
  String.mk ((pyLower text).data.map
    (fun c => if isWordChar c || pyIsSpace c || c = '-' then c else ' '))

/-- The normalised text after `re.sub(r'\s+', ' ', text.strip())`:
whitespace runs collapsed to single spaces, outer whitespace removed. -/
def normText (text : String) : String :=
  joinWith " " (pyWords (cleanChars text))

/-- The token list the extractor works over (`text.split()`). -/
def cleanWords (text : String) : List String :=
  pyWords (cleanChars text)

/-- Stop words from `ATSKeywordMatcher.__init__`. -/
def stop_words : List String :=
  ["the", "a", "an", "and", "or", "but", "in", "on", "at", "to", "for",
   "of", "with", "by", "from", "up", "about", "into", "through", "during",
   "before", "after", "above", "below", "between", "among",
   "is", "was", "are", "were", "be", "been", "being", "have", "has", "had",
   "do", "does", "did", "will", "would", "could", "should", "may", "might",
   "can", "must", "shall", "this", "that", "these", "those", "i", "you",
   "he", "she", "it", "we", "they", "me", "him", "her", "us", "them"]

/-- `_load_technical_keywords`: technical keywords by category. -/
def technical_keywords : List (String × List String) :=
  [("programming_languages",
    ["python", "java", "javascript", "typescript", "c++", "c#", "ruby", "php", "go", "rust",
     "swift", "kotlin", "scala", "r", "matlab", "sql", "html", "css", "dart", "perl"]),
   ("frameworks",
    ["react", "angular", "vue", "django", "flask", "spring", "express", "nodejs", "laravel",
     "rails", "asp.net", "bootstrap", "jquery", "ember", "backbone", "next.js", "nuxt.js"]),
   ("databases",
    ["mysql", "postgresql", "mongodb", "redis", "cassandra", "elasticsearch", "dynamodb",
     "oracle", "sqlite", "mariadb", "couchdb", "neo4j", "influxdb", "snowflake"]),
   ("cloud_platforms",
    ["aws", "azure", "gcp", "google cloud", "amazon web services", "microsoft azure",
     "digitalocean", "heroku", "vercel", "netlify", "cloudflare", "oracle cloud"]),
   ("devops_tools",
    ["docker", "kubernetes", "jenkins", "gitlab", "github", "terraform", "ansible",
     "chef", "puppet", "vagrant", "circleci", "travis ci", "bamboo", "octopus deploy"]),
   ("data_science",
    ["machine learning", "artificial intelligence", "deep learning", "neural networks",
     "pandas", "numpy", "scikit-learn", "tensorflow", "pytorch", "keras", "spark",
     "hadoop", "tableau", "power bi", "excel", "statistics", "data analysis"]),
   ("security",
    ["cybersecurity", "information security", "penetration testing", "vulnerability assessment",
     "encryption", "firewall", "antivirus", "malware", "phishing", "ssl", "tls", "oauth"]),
   ("mobile",
    ["ios", "android", "react native", "flutter", "xamarin", "cordova", "phonegap",
     "swift", "objective-c", "java", "kotlin", "mobile development"]),
   ("testing",
    ["unit testing", "integration testing", "automated testing", "selenium", "cypress",
     "jest", "mocha", "pytest", "junit", "testng", "cucumber", "postman"])]

/-- All technical terms, in category order (used for substring scans). -/
def allTechTerms : List String :=
  technical_keywords.flatMap (fun p => p.2)

/-- `_load_industry_keywords`: industry-specific keywords. -/
def industry_keywords : List (String × List String) :=
  [("technology",
    ["software development", "agile", "scrum", "devops", "microservices", "api", "rest",
     "graphql", "cloud computing", "serverless", "containerization", "ci/cd", "git",
     "version control", "code review", "technical documentation", "system architecture",
     "scalability", "performance optimization", "debugging", "troubleshooting"]),
   ("healthcare",
    ["patient care", "clinical experience", "medical records", "hipaa", "ehr", "emr",
     "healthcare", "nursing", "pharmacy", "radiology", "laboratory", "diagnosis",
     "treatment", "medication", "surgery", "rehabilitation", "telemedicine",
     "medical devices", "clinical trials", "healthcare administration"]),
   ("finance",
    ["financial analysis", "investment", "portfolio management", "risk management",
     "compliance", "audit", "accounting", "budgeting", "forecasting", "valuation",
     "derivatives", "securities", "banking", "insurance", "fintech", "blockchain",
     "cryptocurrency", "trading", "wealth management", "financial modeling"]),
   ("marketing",
    ["digital marketing", "seo", "sem", "social media", "content marketing", "email marketing",
     "ppc", "analytics", "conversion optimization", "brand management", "campaign management",
     "market research", "customer acquisition", "lead generation", "crm", "marketing automation"]),
   ("sales",
    ["sales development", "lead generation", "prospecting", "closing", "negotiation",
     "relationship building", "crm", "pipeline management", "quota attainment",
     "customer retention", "upselling", "cross-selling", "territory management",
     "account management", "sales forecasting", "sales training"]),
   ("education",
    ["curriculum development", "lesson planning", "classroom management", "student assessment",
     "educational technology", "learning management systems", "pedagogy", "instructional design",
     "differentiated instruction", "special education", "esl", "standardized testing",
     "parent communication", "professional development"]),
   ("manufacturing",
    ["lean manufacturing", "six sigma", "quality control", "supply chain", "inventory management",
     "production planning", "process improvement", "safety protocols", "equipment maintenance",
     "iso standards", "continuous improvement", "waste reduction", "efficiency optimization"]),
   ("consulting",
    ["client management", "project management", "stakeholder engagement", "business analysis",
     "process improvement", "change management", "strategic planning", "problem solving",
     "presentation skills", "client relations", "proposal writing", "requirement gathering"])]

/-- All industry terms, flattened (used by `_is_relevant_phrase`). -/
def allIndustryTerms : List String :=
  industry_keywords.flatMap (fun p => p.2)

/-- Skill priority tiers for an industry. -/
structure SkillPriorities where
  critical : List String
  important : List String
  nice_to_have : List String
deriving DecidableEq

/-- `_load_skill_priorities`: skill priorities by industry. -/
def skill_priorities : List (String × SkillPriorities) :=
  [("technology",
    { critical := ["programming", "software development", "problem solving", "debugging"],
      important := ["version control", "testing", "agile", "collaboration"],
      nice_to_have := ["devops", "cloud", "machine learning", "mobile development"] }),
   ("healthcare",
    { critical := ["patient care", "clinical skills", "medical knowledge", "communication"],
      important := ["teamwork", "attention to detail", "empathy", "time management"],
      nice_to_have := ["technology skills", "research", "leadership", "teaching"] }),
   ("finance",
    { critical := ["financial analysis", "excel", "analytical thinking", "attention to detail"],
      important := ["communication", "teamwork", "time management", "presentation skills"],
      nice_to_have := ["programming", "data visualization", "project management", "leadership"] })]

/-! ### Keyword extraction (`app/utils/ats_keywords.py`) -/

/-- Adjacent pairs of a list, `[(l₀,l₁), (l₁,l₂), …]`. -/
def adjacentPairs : List String → List (String × String)
  | a :: b :: rest => (a, b) :: adjacentPairs (b :: rest)
  | _ => []

/-- Adjacent triples of a list. -/
def adjacentTriples : List String → List (String × String × String)
  | a :: b :: c :: rest => (a, b, c) :: adjacentTriples (b :: c :: rest)
  | _ => []

/-- Alternatives of the first technical regex pattern of `_is_relevant_phrase`. -/
def patEndAlts1 : List String :=
  ["development", "programming", "management", "analysis", "design"]

/-- Alternatives of the second technical regex pattern. -/
def patStartAlts : List String :=
  ["web", "mobile", "software", "data", "system"]

/-- Alternatives of the third technical regex pattern. -/
def patEndAlts2 : List String :=
  ["engineer", "developer", "analyst", "manager", "specialist"]

/-- Does the token start with alternative `w` at a word boundary, as required
by `(w…)\b` when the token follows whitespace?  For tokens drawn from cleaned
text (word characters and hyphens only) this means the token is exactly `w`
or continues with a non-word character after `w`. -/
def tokStartsAlt (tok w : String) : Bool :=
  w.data.isPrefixOf tok.data &&
    (tok.length = w.length || !(isWordChar (tok.data.getD w.length ' ')))

/-- Does the token end with alternative `w` preceded by a word boundary, as
required by `\b(w…)` when the alternative is followed by whitespace?  For
cleaned-text tokens this means the token is exactly `w` or ends with `-w`. -/
def tokEndsAlt (tok w : String) : Bool :=
  tok = w || ("-" ++ w).data.isSuffixOf tok.data

/-- Does the token end in a word character (so `\b\w+` can end at the token
boundary just before the whitespace)? -/
def tokEndsWord (tok : String) : Bool :=
  match tok.data.getLast? with
  | some c => isWordChar c
  | none => false

/-- Does the token begin with a word character (so `\s+\w+` can match)? -/
def tokStartsWord (tok : String) : Bool :=
  match tok.data with
  | c :: _ => isWordChar c
  | [] => false

/-- `re.search` of the three `tech_patterns` of `_is_relevant_phrase` over a
phrase of space-separated tokens.  The patterns are
`\b\w+\s+(development|programming|management|analysis|design)\b`,
`\b(web|mobile|software|data|system)\s+\w+\b` and
`\b\w+\s+(engineer|developer|analyst|manager|specialist)\b`; since `\s+` can
only match the separating spaces, each pattern matches iff some adjacent
token pair satisfies the corresponding boundary conditions. -/
def matchesTechPattern (phrase : String) : Bool :=
  let pairs := adjacentPairs (splitRuns (fun c => c = ' ') phrase)
  pairs.any (fun p =>
    (tokEndsWord p.1 && patEndAlts1.any (fun w => tokStartsAlt p.2 w)) ||
    (patStartAlts.any (fun w => tokEndsAlt p.1 w) && tokStartsWord p.2) ||
    (tokEndsWord p.1 && patEndAlts2.any (fun w => tokStartsAlt p.2 w)))

/-- `_is_relevant_phrase`: known technical term, known industry term, or a
match of one of the technical regex patterns. -/
def _is_relevant_phrase (phrase : String) : Bool :=
  allTechTerms.contains phrase ||
  allIndustryTerms.contains phrase ||
  matchesTechPattern phrase

/-- Is every character of the word a decimal digit (`str.isdigit`)? -/
def pyIsDigitWord (w : String) : Bool :=
  w ≠ "" && w.data.all (fun c => c.isDigit)

/-- Does the word match `^[a-zA-Z-]+$`? -/
def isAlphaHyphenWord (w : String) : Bool :=
  w ≠ "" && w.data.all (fun c => c.isAlpha || c = '-')

/-- `ATSKeywordMatcher.extract_keywords`: technical terms found as substrings
of the normalised text, single meaningful words, and relevant
bigrams/trigrams.  Python returns `list(keywords)` for a set built in this
way; we model the set directly as a `Finset`. -/
def extract_keywords (text : String) : Finset String :=
  if text = "" then ∅ else
  let t := normText text
  let words := cleanWords text
  let techFound := allTechTerms.filter (fun term => strContains t term)
  let singles := words.filter (fun w =>
    w.length > 2 && !stop_words.contains w && !pyIsDigitWord w && isAlphaHyphenWord w)
  let bigrams := (adjacentPairs words).map (fun p => p.1 ++ " " ++ p.2)
    |>.filter _is_relevant_phrase
  let trigrams := (adjacentTriples words).map
    (fun p => p.1 ++ " " ++ p.2.1 ++ " " ++ p.2.2)
    |>.filter _is_relevant_phrase
  (techFound ++ singles ++ bigrams ++ trigrams).toFinset

/-- `get_industry_keywords`: static lookup keyed by lowercased industry. -/
def get_industry_keywords (industry : String) : List String :=
  if industry = "" then [] else
  match (industry_keywords.filter (fun p => p.1 = pyLower industry)).head? with
  | some p => p.2
  | none => []

/-- `get_skill_priorities`: static lookup keyed by lowercased industry. -/
def get_skill_priorities (industry : Option String) : SkillPriorities :=
  match industry with
  | none => { critical := [], important := [], nice_to_have := [] }
  | some ind =>
    if ind = "" then { critical := [], important := [], nice_to_have := [] } else
    match (skill_priorities.filter (fun p => p.1 = pyLower ind)).head? with
    | some p => p.2
    | none => { critical := [], important := [], nice_to_have := [] }

/-- `get_industry_skills`: technical categories for known industries plus the
industry keyword list, de-duplicated (`list(set(skills))`). -/
def get_industry_skills (industry : String) : Finset String :=
  if industry = "" then ∅ else
  let base : List String :=
    if pyLower industry = "technology" then
      (technical_keywords.filter (fun p =>
        ["programming_languages", "frameworks", "databases",
         "cloud_platforms", "devops_tools"].contains p.1)).flatMap (fun p => p.2)
    else if pyLower industry = "healthcare" then
      ["medical terminology", "patient care", "clinical documentation", "hipaa compliance"]
    else if pyLower industry = "finance" then
      ["financial modeling", "excel", "bloomberg terminal", "risk analysis"]
    else []
  (base ++ get_industry_keywords industry).toFinset

/-- Does `w` occur in `t` delimited by word boundaries on both sides
(`re.search` of `\bw\b`)?  `prev` is the character just before the scan
position. -/
def boundedOccurs (w : List Char) (prev : Option Char) : List Char → Bool
  | [] => false
  | c :: rest =>
    (boundaryBefore prev && w.isPrefixOf (c :: rest) &&
      boundaryAfterAt w (c :: rest)) ||
    boundedOccurs w (some c) rest
where
  boundaryBefore : Option Char → Bool
    | none => true
    | some c => !(isWordChar c)
  boundaryAfterAt (w t : List Char) : Bool :=
    match t.drop w.length with
    | [] => true
    | c :: _ => !(isWordChar c)

/-- All matches of `\b w₁ . w₂ \b` (regex `.` is any character but a
newline) in `t`: the concrete matched strings `w₁ ++ c ++ w₂`. -/
def dottedOccurrences (w1 w2 : List Char) (prev : Option Char) :
    List Char → List String
  | [] => []
  | c :: rest =>
    let here :=
      if boundedOccurs.boundaryBefore prev &&
         w1.isPrefixOf (c :: rest) then
        match (c :: rest).drop w1.length with
        | mid :: t2 =>
          if mid ≠ '\n' && w2.isPrefixOf t2 &&
             boundedOccurs.boundaryAfterAt w2 t2 then
            [String.mk (w1 ++ mid :: w2)]
          else []
        | [] => []
      else []
    here ++ dottedOccurrences w1 w2 (some c) rest

/-- One alternative of a soft-skill regex: either a plain word or a pair of
words joined by `.` (any character) in the source pattern. -/
inductive SoftAlt where
  | plain (w : String)
  | dotted (w1 w2 : String)

/-- The alternatives of the three `soft_skill_patterns` of
`extract_skills_from_text`, in order. -/
def softSkillAlts : List SoftAlt :=
  [.plain "communication", .plain "leadership", .plain "teamwork",
   .dotted "problem" "solving", .plain "analytical", .plain "creative",
   .dotted "detail" "oriented",
   .dotted "time" "management", .dotted "project" "management",
   .dotted "critical" "thinking", .plain "adaptability",
   .plain "collaboration", .plain "interpersonal", .plain "presentation",
   .plain "negotiation", .dotted "conflict" "resolution"]

/-- The matched strings contributed by one soft-skill alternative
(`re.findall` adds the matched group text to the skill set). -/
def softAltMatches (t : List Char) : SoftAlt → List String
  | .plain w => if boundedOccurs w.data none t then [w] else []
  | .dotted w1 w2 => dottedOccurrences w1.data w2.data none t

/-- `extract_skills_from_text`: technical-dictionary substring scan over the
lowercased text plus soft-skill regex matches. -/
def extract_skills_from_text (text : String) : Finset String :=
  if text = "" then ∅ else
  let tl := pyLower text
  let tech := allTechTerms.filter (fun skill => strContains tl skill)
  let soft := softSkillAlts.flatMap (softAltMatches tl.data)
  (tech ++ soft).toFinset

/-! ### Resume data model

The analysis service receives `resume_content` as a dict.  We model the
well-typed dict shapes the service reads: `Option` marks presence of a key,
`""`/`[]` model falsy leaf values (the service treats an absent key and a
falsy present value identically everywhere below the top level, except for
dict-emptiness checks, which we model structurally). -/

/-- The `personal_info` sub-dictionary.  `extra` records whether the dict
holds keys other than the four the service reads (so that Python dict
truthiness is representable). -/
structure PersonalInfo where
  first_name : Option String
  last_name : Option String
  email : Option String
  phone : Option String
  extra : Bool
deriving DecidableEq

/-- Is the `personal_info` dict empty (falsy in Python)? -/
def PersonalInfo.isEmptyDict (pi : PersonalInfo) : Bool :=
  pi.first_name.isNone && pi.last_name.isNone && pi.email.isNone &&
  pi.phone.isNone && !pi.extra

/-- Python truthiness of `personal_info.get(field)`: key present and not
the empty string. -/
def optStrTruthy : Option String → Bool
  | none => false
  | some s => s ≠ ""

/-- A `work_experience` entry. -/
structure WorkJob where
  job_title : String
  company : String
  responsibilities : List String
  start_date : String
  end_date : String
deriving DecidableEq

/-- An `education` entry. -/
structure EducationEntry where
  degree : String
  institution : String
  field_of_study : String
deriving DecidableEq

/-- A `projects` entry. -/
structure ProjectEntry where
  name : String
  description : String
  technologies : List String
deriving DecidableEq

/-- A `certifications` entry. -/
structure CertEntry where
  name : String
  issuer : String
deriving DecidableEq

/-- The résumé dict.  `extra_keys` records whether the dict has keys beyond
the modelled ones, so that Python's `not resume_content` is representable. -/
structure Resume where
  personal_info : Option PersonalInfo
  professional_summary : Option String
  work_experience : Option (List WorkJob)
  education : Option (List EducationEntry)
  skills : Option (List (String × List String))
  projects : Option (List ProjectEntry)
  certifications : Option (List CertEntry)
  extra_keys : Bool
deriving DecidableEq

/-- Is the résumé dict empty (`not resume_content` in Python)? -/
def Resume.isEmptyDict (r : Resume) : Bool :=
  r.personal_info.isNone && r.professional_summary.isNone &&
  r.work_experience.isNone && r.education.isNone && r.skills.isNone &&
  r.projects.isNone && r.certifications.isNone && !r.extra_keys

/-- The `work_experience` list the service reads
(`resume_content.get('work_experience', [])`). -/
def Resume.workList (r : Resume) : List WorkJob := r.work_experience.getD []

/-- The `skills` dict the service reads, as category/value pairs. -/
def Resume.skillPairs (r : Resume) : List (String × List String) := r.skills.getD []

/-! ### `_extract_resume_text` -/

/-- Text parts contributed by one work-experience entry. -/
def workJobParts (j : WorkJob) : List String :=
  (if j.job_title ≠ "" then [j.job_title] else []) ++
  (if j.company ≠ "" then [j.company] else []) ++
  j.responsibilities.filter (fun resp => resp ≠ "")

/-- Text parts contributed by one education entry. -/
def educationParts (e : EducationEntry) : List String :=
  (if e.degree ≠ "" then [e.degree] else []) ++
  (if e.institution ≠ "" then [e.institution] else []) ++
  (if e.field_of_study ≠ "" then [e.field_of_study] else [])

/-- Text parts contributed by one project entry. -/
def projectParts (p : ProjectEntry) : List String :=
  (if p.name ≠ "" then [p.name] else []) ++
  (if p.description ≠ "" then [p.description] else []) ++
  p.technologies.filter (fun tech => tech ≠ "")

/-- Text parts contributed by one certification entry. -/
def certParts (c : CertEntry) : List String :=
  (if c.name ≠ "" then [c.name] else []) ++
  (if c.issuer ≠ "" then [c.issuer] else [])

/-- `_extract_resume_text`: concatenate all non-empty string fields in fixed
order, strip each part, join with single spaces. -/
def _extract_resume_text (r : Resume) : String :=
  let personalParts : List String :=
    match r.personal_info with
    | none => []
    | some pi =>
      let fn := pi.first_name.getD ""
      let ln := pi.last_name.getD ""
      if fn ≠ "" || ln ≠ "" then [pyStrip (fn ++ " " ++ ln)] else []
  let summaryParts : List String :=
    match r.professional_summary with
    | none => []
    | some s => if s ≠ "" then [pyStrip s] else []
  let workParts := r.workList.flatMap workJobParts
  let eduParts := (r.education.getD []).flatMap educationParts
  let skillParts := r.skillPairs.flatMap (fun p => p.2.filter (fun sk => sk ≠ ""))
  let projParts := (r.projects.getD []).flatMap projectParts
  let certParts' := (r.certifications.getD []).flatMap certParts
  let parts := personalParts ++ summaryParts ++ workParts ++ eduParts ++
    skillParts ++ projParts ++ certParts'
  let filtered := (parts.filter (fun p => p ≠ "" && pyStrip p ≠ "")).map pyStrip
  joinWith " " filtered

/-! ### `_analyze_formatting` -/

/-- Result dict of `_analyze_formatting`. -/
structure FormattingResult where
  score : ℤ
  issues : List String
  recommendations : List String
deriving DecidableEq

/-- Python truthiness of `resume_content.get(section)` for each required
section. -/
def sectionTruthy (r : Resume) : String → Bool
  | "personal_info" =>
    match r.personal_info with
    | none => false
    | some pi => !pi.isEmptyDict
  | "work_experience" =>
    match r.work_experience with
    | none => false
    | some l => l ≠ []
  | "education" =>
    match r.education with
    | none => false
    | some l => l ≠ []
  | "skills" =>
    match r.skills with
    | none => false
    | some l => l ≠ []
  | _ => false

/-- The required top-level sections, in source order. -/
def required_sections : List String :=
  ["personal_info", "work_experience", "education", "skills"]

/-- The required personal-info fields, in source order. -/
def required_personal_fields : List String := ["first_name", "last_name", "email", "phone"]

/-- Python truthiness of `personal_info.get(field)`. -/
def personalFieldTruthy (pi : PersonalInfo) : String → Bool
  | "first_name" => optStrTruthy pi.first_name
  | "last_name" => optStrTruthy pi.last_name
  | "email" => optStrTruthy pi.email
  | "phone" => optStrTruthy pi.phone
  | _ => false

/-- `section.replace('_', ' ').title()` for the four required sections. -/
def titleCaseSection : String → String
  | "personal_info" => "Personal Info"
  | "work_experience" => "Work Experience"
  | "education" => "Education"
  | "skills" => "Skills"
  | s => s

/-- `field.replace('_', ' ')`. -/
def underscoreToSpace (s : String) : String :=
  String.mk (s.data.map (fun c => if c = '_' then ' ' else c))

/-- Formatting issues and penalty for one work-experience entry. -/
def jobFormatIssues (i : ℕ) (j : WorkJob) : List String :=
  (if j.job_title = "" then ["Work experience " ++ toString (i + 1) ++ ": Missing job title"] else []) ++
  (if j.company = "" then ["Work experience " ++ toString (i + 1) ++ ": Missing company name"] else []) ++
  (if j.responsibilities = [] then ["Work experience " ++ toString (i + 1) ++ ": Missing responsibilities"] else [])

/-- Date strings collected from the work history for the consistency check. -/
def dateStrings (r : Resume) : List String :=
  r.workList.flatMap (fun j =>
    (if j.start_date ≠ "" then [j.start_date] else []) ++
    (if j.end_date ≠ "" then [j.end_date] else []))

/-- `_analyze_formatting`: start at 100, deduct per missing structure, floor
at 0. -/
def _analyze_formatting (r : Resume) : FormattingResult :=
  let missing_sections := required_sections.filter (fun s => !sectionTruthy r s)
  let sectionIssues := missing_sections.map (fun s =>
    "Missing " ++ titleCaseSection s ++ " section")
  let pi := r.personal_info.getD ⟨none, none, none, none, false⟩
  let missing_personal := required_personal_fields.filter
    (fun f => !personalFieldTruthy pi f)
  let personalIssues := missing_personal.map (fun f =>
    "Missing " ++ underscoreToSpace f)
  let summaryMissing := !optStrTruthy r.professional_summary
  let jobIssues := r.workList.enum.flatMap (fun p => jobFormatIssues p.1 p.2)
  let dates := dateStrings r
  let dateLens := (dates.map String.length).toFinset
  let datePenalty : ℤ := if dates ≠ [] && dateLens.card > 1 then 5 else 0
  let score : ℤ := 100
    - 15 * missing_sections.length
    - 5 * missing_personal.length
    - (if summaryMissing then 10 else 0)
    - 5 * jobIssues.length
    - datePenalty
  { score := max 0 score
    issues := sectionIssues ++ personalIssues ++
      (if summaryMissing then ["Missing professional summary"] else []) ++
      jobIssues ++
      (if datePenalty ≠ 0 then ["Inconsistent date formatting"] else [])
    recommendations :=
      (if summaryMissing then
        ["Add a professional summary to highlight your key qualifications"] else []) ++
      (if datePenalty ≠ 0 then
        ["Use consistent date format throughout resume"] else []) }

/-! ### Keyword analysis (`_analyze_keywords`, `_calculate_keyword_score`) -/

/-- The `KeywordAnalysis` schema.  Python's keyword lists come from sets with
unspecified iteration order; we model them as `Finset`s (including
`missing_keywords`, whose `[:10]` truncation selects an unspecified subset
and is not referenced by any claim). -/
structure KeywordAnalysis where
  score : ℤ
  total_keywords : ℕ
  industry_keywords : List String
  job_keywords : Finset String
  matched_keywords : Finset String
  missing_keywords : Finset String
  keyword_density : ℚ
  job_match_percentage : Option ℚ
deriving DecidableEq

/-- The job-match formula of `_analyze_keywords`:
`len(matched)/len(job_keywords) * 100`. -/
def jobMatchPercent (resume_kw job_kw : Finset String) : ℚ :=
  ((resume_kw ∩ job_kw).card : ℚ) / (job_kw.card : ℚ) * 100

/-- `_calculate_keyword_score`: base points for keyword count, job and
industry overlap bonuses, density bonus/penalty, clamped to [0, 100]. -/
def _calculate_keyword_score (resume_kw job_kw : Finset String)
    (ind_kw : List String) (resume_text : String) : ℤ :=
  let base : ℤ := if resume_kw ≠ ∅ then min 50 (2 * resume_kw.card) else 0
  let jobBonus : ℤ :=
    if job_kw ≠ ∅ then
      pyTrunc (((resume_kw ∩ job_kw).card : ℚ) / (job_kw.card : ℚ) * 30)
    else 0
  let indBonus : ℤ :=
    if ind_kw ≠ [] then
      pyTrunc (((resume_kw ∩ ind_kw.toFinset).card : ℚ) / (ind_kw.length : ℚ) * 20)
    else 0
  let densityAdj : ℤ :=
    if resume_text ≠ "" then
      let word_count := (pyWords resume_text).length
      if word_count > 0 then
        let density : ℚ := (resume_kw.card : ℚ) / (word_count : ℚ) * 100
        if 2 ≤ density ∧ density ≤ 8 then 10
        else if density > 15 then -10 else 0
      else 0
    else 0
  min 100 (max 0 (base + jobBonus + indBonus + densityAdj))

/-- Python truthiness of an optional string argument. -/
def optArgTruthy : Option String → Bool
  | none => false
  | some s => s ≠ ""

/-- `_analyze_keywords`: extract résumé and job keywords, compute the match
percentage, the keyword score and the keyword density. -/
def _analyze_keywords (r : Resume) (job_description target_industry : Option String) :
    KeywordAnalysis :=
  let resume_text := pyLower (_extract_resume_text r)
  let resume_kw := extract_keywords resume_text
  let ind_kw : List String :=
    if optArgTruthy target_industry then
      get_industry_keywords (target_industry.getD "")
    else []
  let job_kw : Finset String :=
    if optArgTruthy job_description then
      extract_keywords (pyLower (job_description.getD ""))
    else ∅
  let jmp : Option ℚ :=
    if optArgTruthy job_description ∧ job_kw ≠ ∅ then
      some (jobMatchPercent resume_kw job_kw)
    else none
  let missing : Finset String :=
    if optArgTruthy job_description ∧ job_kw ≠ ∅ then job_kw \ resume_kw else ∅
  let score := _calculate_keyword_score resume_kw job_kw ind_kw resume_text
  let total_words : ℕ := if resume_text ≠ "" then (pyWords resume_text).length else 1
  { score := score
    total_keywords := resume_kw.card
    industry_keywords := ind_kw
    job_keywords := job_kw
    matched_keywords := if job_kw ≠ ∅ then resume_kw ∩ job_kw else ∅
    missing_keywords := missing
    keyword_density := (resume_kw.card : ℚ) / (total_words : ℚ) * 100
    job_match_percentage := jmp }

/-! ### Content structure (`_analyze_content_structure` and helpers) -/

/-- `_has_quantifiable_achievements`: does any responsibility match
`\d+[%$]?|\$\d+|increased|reduced|improved|grew|saved` (ignoring case)?
Every alternative either requires a digit or is a plain substring, so the
regex finds a match iff the lowered text has a digit or one of the words. -/
def respQuantifiable (resp : String) : Bool :=
  let lower := pyLower resp
  lower.data.any (fun c => c.isDigit) ||
  ["increased", "reduced", "improved", "grew", "saved"].any
    (fun w => strContains lower w)

/-- `_has_quantifiable_achievements` over the whole work history. -/
def _has_quantifiable_achievements (r : Resume) : Bool :=
  r.workList.any (fun j => j.responsibilities.any respQuantifiable)

/-- The strong action verbs of `_count_action_verbs`. -/
def strongActionVerbs : List String :=
  ["achieved", "administered", "analyzed", "built", "created", "developed",
   "implemented", "improved", "increased", "led", "managed", "organized",
   "reduced", "streamlined", "supervised", "designed", "executed", "delivered"]

/-- `first_word.rstrip('.,!?:;')`. -/
def rstripPunct (s : String) : String :=
  String.mk ((s.data.reverse.dropWhile
    (fun c => c = '.' || c = ',' || c = '!' || c = '?' || c = ':' || c = ';')).reverse)

/-- `_count_action_verbs`: distinct strong action verbs opening
responsibility bullets.  Python returns `list(found_verbs)` for a set; we
model the set. -/
def _count_action_verbs (r : Resume) : Finset String :=
  (r.workList.flatMap (fun j =>
    j.responsibilities.flatMap (fun resp =>
      match pyWords (pyLower resp) with
      | [] => []
      | w :: _ =>
        let fw := rstripPunct w
        if strongActionVerbs.contains fw then [fw] else []))).toFinset

/-- Result dict of `_analyze_content_structure`. -/
structure ContentResult where
  score : ℤ
  word_count : ℕ
  issues : List String
  recommendations : List String
  action_verbs_used : Finset String
deriving DecidableEq

/-- Resume length thresholds from `ATSAnalysisService.__init__`. -/
def min_resume_length : ℕ := 200
def optimal_resume_length : ℕ := 600
def max_resume_length : ℕ := 1000

/-- `_analyze_content_structure`: start at 100, deduct for length, work
depth, missing quantifiable achievements, skill count and action verbs. -/
def _analyze_content_structure (r : Resume) : ContentResult :=
  let resume_text := _extract_resume_text r
  let word_count : ℕ := if resume_text ≠ "" then (pyWords resume_text).length else 0
  let lengthPenalty : ℤ :=
    if word_count < min_resume_length then 20
    else if word_count > max_resume_length then 10 else 0
  let lengthIssues : List String :=
    if word_count < min_resume_length then
      ["Resume too short - may lack sufficient detail"]
    else if word_count > max_resume_length then
      ["Resume too long - may be overwhelming for recruiters"]
    else []
  let work := r.workList
  let depthPenalty : ℤ :=
    if work ≠ [] then
      let total_resp := (work.map (fun j => j.responsibilities.length)).sum
      let valid_jobs := work.length
      if (total_resp : ℚ) / (valid_jobs : ℚ) < 2 then 15 else 0
    else 0
  let quantPenalty : ℤ := if _has_quantifiable_achievements r then 0 else 15
  let total_skills := (r.skillPairs.map (fun p => p.2.length)).sum
  let skillsPenalty : ℤ :=
    if total_skills < 5 then 10 else if total_skills > 30 then 5 else 0
  let verbs := _count_action_verbs r
  let verbPenalty : ℤ := if verbs.card < 3 then 10 else 0
  let score : ℤ := 100 - lengthPenalty - depthPenalty - quantPenalty -
    skillsPenalty - verbPenalty
  { score := max 0 score
    word_count := word_count
    issues := lengthIssues ++
      (if depthPenalty ≠ 0 then ["Work experience lacks detail"] else []) ++
      (if quantPenalty ≠ 0 then ["Missing quantifiable achievements"] else []) ++
      (if total_skills < 5 then ["Limited skills listed"]
       else if total_skills > 30 then ["Too many skills listed"] else []) ++
      (if verbPenalty ≠ 0 then ["Limited use of strong action verbs"] else [])
    recommendations := []
    action_verbs_used := verbs }

/-! ### Readability (`_analyze_readability`) -/

/-- `_analyze_readability`: average sentence and word lengths scored against
the optima 15 words/sentence and 5 characters/word, averaged and clamped. -/
def _analyze_readability (resume_text : String) : ℤ :=
  if resume_text = "" ∨ pyStrip resume_text = "" then 0 else
  let sentences := ((splitRuns
      (fun c => c = '.' || c = '!' || c = '?') resume_text).map pyStrip).filter
      (fun s => s ≠ "")
  let words := pyWords resume_text
  if sentences = [] ∨ words = [] then 0 else
  let avg_sentence_length : ℚ := (words.length : ℚ) / (sentences.length : ℚ)
  let avg_word_length : ℚ :=
    ((words.map String.length).sum : ℚ) / (words.length : ℚ)
  let sentence_score : ℚ := 100 - |avg_sentence_length - 15| * 2
  let word_score : ℚ := 100 - |avg_word_length - 5| * 10
  let readability_score : ℚ := (sentence_score + word_score) / 2
  max 0 (min 100 (pyTrunc readability_score))

/-! ### Binary64 model

CPython floats are IEEE-754 binary64 values; every arithmetic operation
rounds its exact result to 53 significant bits, to nearest, ties to even.
The magnitudes arising in this program lie far inside the normal range, so
a value model of unbounded-exponent 53-bit dyadics with round-to-nearest-
even is exact for them.  A dyadic `⟨m, e⟩` denotes `m · 2^e`. -/

structure Dy where
  m : ℤ
  e : ℤ
deriving DecidableEq

/-- The rational value of a dyadic. -/
def Dy.toRat (d : Dy) : ℚ := (d.m : ℚ) * (2 : ℚ) ^ d.e

/-- An integer as a binary64 value (exact for the small integers here). -/
def dyOfInt (n : ℤ) : Dy := ⟨n, 0⟩

/-- Exact product of dyadics. -/
def dyMul (a b : Dy) : Dy := ⟨a.m * b.m, a.e + b.e⟩

/-- Exact sum of dyadics (align to the smaller exponent). -/
def dyAdd (a b : Dy) : Dy :=
  if a.e ≤ b.e then ⟨a.m + b.m * 2 ^ (b.e - a.e).toNat, a.e⟩
  else ⟨a.m * 2 ^ (a.e - b.e).toNat + b.m, b.e⟩

/-- Exact difference of dyadics. -/
def dySub (a b : Dy) : Dy := dyAdd a ⟨-b.m, b.e⟩

/-- Exact order comparison of dyadic values. -/
def dyLt (a b : Dy) : Bool :=
  if a.e ≤ b.e then a.m < b.m * 2 ^ (b.e - a.e).toNat
  else a.m * 2 ^ (a.e - b.e).toNat < b.m

/-- Number of binary digits of `n`, by fuel recursion (`fuel ≥ n` always
suffices, and the recursion depth is the bit length). -/
def bitLenFuel : ℕ → ℕ → ℕ
  | 0, _ => 0
  | fuel + 1, n => if n = 0 then 0 else bitLenFuel fuel (n / 2) + 1

/-- Number of binary digits: `2^(bitLen n − 1) ≤ n < 2^(bitLen n)` for
positive `n`. -/
def bitLen (n : ℕ) : ℕ := bitLenFuel n n

/-- Round a positive mantissa to at most 53 bits, to nearest, ties to even;
returns the rounded mantissa and the exponent shift. -/
def roundMantissa (m : ℕ) : ℕ × ℕ :=
  let L := bitLen m
  if L ≤ 53 then (m, 0)
  else
    let shift := L - 53
    let q := m / 2 ^ shift
    let r := m % 2 ^ shift
    let half := 2 ^ (shift - 1)
    if r > half then (q + 1, shift)
    else if r < half then (q, shift)
    else if q % 2 = 0 then (q, shift) else (q + 1, shift)

/-- Round a dyadic to binary64 precision (round to nearest, ties to even).
Every float operation below is an exact dyadic operation followed by this
rounding, which is the IEEE-754 semantics of the operation. -/
def dyRound (d : Dy) : Dy :=
  if d.m = 0 then ⟨0, 0⟩
  else if 0 < d.m then
    let p := roundMantissa d.m.toNat
    ⟨(p.1 : ℤ), d.e + p.2⟩
  else
    let p := roundMantissa (-d.m).toNat
    ⟨-(p.1 : ℤ), d.e + p.2⟩

/-- Round a positive rational `num / den` to 53 significant bits, to
nearest, ties to even; returns mantissa and exponent. -/
def roundRatPos (num den : ℕ) : ℕ × ℤ :=
  let e0 : ℤ := (bitLen num : ℤ) - bitLen den - 53
  let a := if e0 ≤ 0 then num * 2 ^ (-e0).toNat else num
  let b := if e0 ≤ 0 then den else den * 2 ^ e0.toNat
  let q := a / b
  if q < 2 ^ 53 then (roundQuot q (a % b) b, e0)
  else (roundQuot (a / (2 * b)) (a % (2 * b)) (2 * b), e0 + 1)
where
  roundQuot (q r b : ℕ) : ℕ :=
    if 2 * r > b then q + 1
    else if 2 * r < b then q
    else if q % 2 = 0 then q else q + 1

/-- Binary64 division: round the exact quotient to nearest, ties to even
(division by zero is unreachable behind the zero-denominator guard). -/
def dyDiv (a b : Dy) : Dy :=
  if a.m = 0 ∨ b.m = 0 then ⟨0, 0⟩
  else
    let p := roundRatPos a.m.natAbs b.m.natAbs
    if (0 < a.m ∧ 0 < b.m) ∨ (a.m < 0 ∧ b.m < 0) then ⟨(p.1 : ℤ), p.2 + a.e - b.e⟩
    else ⟨-(p.1 : ℤ), p.2 + a.e - b.e⟩

/-- Python's `int()` on a float: truncate the dyadic toward zero. -/
def dyTruncToInt (d : Dy) : ℤ :=
  if 0 ≤ d.e then d.m * 2 ^ d.e.toNat
  else if 0 ≤ d.m then ((d.m.natAbs / 2 ^ (-d.e).toNat : ℕ) : ℤ)
  else -((d.m.natAbs / 2 ^ (-d.e).toNat : ℕ) : ℤ)

/-- `sum(...)` over floats: fold left with a rounded addition, starting
from zero (the first addition `0 + t` is exact). -/
def pySum (l : List Dy) : Dy :=
  l.foldl (fun acc t => dyRound (dyAdd acc t)) ⟨0, 0⟩

/-- The binary64 value of the literal `0.25` (exact). -/
def w25 : Dy := ⟨1, -2⟩

/-- The binary64 value of the literal `0.35`: the double nearest 7/20. -/
def w35 : Dy := ⟨6305039478318694, -54⟩

/-- The binary64 value of the literal `0.15`: the double nearest 3/20. -/
def w15 : Dy := ⟨5404319552844595, -55⟩

/-- The relative rounding-error bound of binary64, `2^−53`. -/
def dyEps : ℚ := 1 / 2 ^ 53

/-! ### Overall score (`_calculate_overall_ats_score`) -/

/-- `_calculate_overall_ats_score`: fixed weights 0.25/0.35/0.25/0.15,
summed left to right in binary64 arithmetic and truncated to an integer
with `int()`, exactly as CPython evaluates
`f*0.25 + k*0.35 + c*0.25 + r*0.15`. -/
def _calculate_overall_ats_score (formatting keyword content readability : ℤ) : ℤ :=
  dyTruncToInt (dyRound (dyAdd (dyRound (dyAdd (dyRound (dyAdd
    (dyRound (dyMul (dyOfInt formatting) w25)) (dyRound (dyMul (dyOfInt keyword) w35))))
    (dyRound (dyMul (dyOfInt content) w25)))) (dyRound (dyMul (dyOfInt readability) w15))))

/-! ### Skill gaps (`_analyze_skill_gaps`) -/

/-- The `SkillGapAnalysis` schema, with Python's set-derived lists modelled
as `Finset`s. -/
structure SkillGapAnalysis where
  current_skills : Finset String
  required_skills : Finset String
  missing_skills : Finset String
  matching_skills : Finset String
  critical_missing : Finset String
  important_missing : Finset String
  nice_to_have_missing : Finset String
  skill_match_percentage : ℚ
deriving DecidableEq

/-- The lowercased résumé skills (`str(skill).lower()` over every truthy
entry of every skill category). -/
def currentSkills (r : Resume) : Finset String :=
  ((r.skillPairs.flatMap (fun p => p.2.filter (fun sk => sk ≠ ""))).map
    pyLower).toFinset

/-- `_analyze_skill_gaps`: diff the résumé's skills against the skills
required by the job description and/or industry, tier the gaps and compute
the match percentage. -/
def _analyze_skill_gaps (r : Resume) (job_description target_industry : Option String) :
    SkillGapAnalysis :=
  let current := currentSkills r
  let fromJob : Finset String :=
    if optArgTruthy job_description then
      (extract_skills_from_text (job_description.getD "")).image pyLower
    else ∅
  let fromIndustry : Finset String :=
    if optArgTruthy target_industry then
      (get_industry_skills (target_industry.getD "")).image pyLower
    else ∅
  let required := fromJob ∪ fromIndustry
  let missing := required \ current
  let matching := required ∩ current
  let prios := get_skill_priorities target_industry
  let critical := missing.filter (fun sk => prios.critical.contains sk)
  let important := missing.filter (fun sk =>
    ¬ prios.critical.contains sk ∧ prios.important.contains sk)
  let nice := missing.filter (fun sk =>
    ¬ prios.critical.contains sk ∧ ¬ prios.important.contains sk)
  let pct : ℚ :=
    if required ≠ ∅ then (matching.card : ℚ) / (required.card : ℚ) * 100 else 100
  { current_skills := current
    required_skills := required
    missing_skills := missing
    matching_skills := matching
    critical_missing := critical
    important_missing := important
    nice_to_have_missing := nice
    skill_match_percentage := pct }

/-! ### Recommendations (`_generate_ats_recommendations`) -/

/-- `PriorityLevel` enum. -/
inductive PriorityLevel where
  | high
  | medium
  | low
deriving DecidableEq

/-- `RecommendationCategory` enum. -/
inductive RecommendationCategory where
  | formatting
  | keywords
  | content
  | readability
  | job_match
  | skills
deriving DecidableEq

/-- The `ATSRecommendation` schema.  Descriptions that interpolate dynamic
numbers in Python are modelled by their static text; no claim refers to
message wording. -/
structure ATSRecommendation where
  category : RecommendationCategory
  priority : PriorityLevel
  title : String
  description : String
  impact : String
  action_items : List String
deriving DecidableEq

/-- Rule 1: formatting score below 80 emits up to three HIGH items, one per
outstanding formatting issue. -/
def fmtBlock (fs : FormattingResult) : List ATSRecommendation :=
  if fs.score < 80 then
    (fs.issues.take 3).map (fun issue =>
      { category := .formatting
        priority := .high
        title := "Fix Resume Structure"
        description := issue
        impact := "Improves ATS parsing accuracy"
        action_items := ["Address: " ++ issue] })
  else []

/-- Rule 2: keyword score below 70 emits one HIGH item. -/
def kwBlock (ka : KeywordAnalysis) : List ATSRecommendation :=
  if ka.score < 70 then
    [{ category := .keywords
       priority := .high
       title := "Improve Keyword Optimization"
       description := "Your resume lacks relevant keywords for ATS systems"
       impact := "Increases chances of passing initial ATS screening"
       action_items :=
         ["Add industry-specific keywords naturally throughout your resume",
          "Include skill keywords in your experience descriptions",
          "Optimize your professional summary with relevant terms"] }]
  else []

/-- Rule 3: the source condition is
`keyword_analysis.job_match_percentage and … < 60`; under Python truthiness
a present value of `0.0` is falsy, so the rule fires only for present
*non-zero* percentages below 60. -/
def jobBlock (ka : KeywordAnalysis) : List ATSRecommendation :=
  match ka.job_match_percentage with
  | none => []
  | some p =>
    if p ≠ 0 ∧ p < 60 then
      [{ category := .job_match
         priority := .medium
         title := "Improve Job Description Alignment"
         description := "Only a fraction of the job requirements are matched"
         impact := "Better alignment with specific job requirements"
         action_items :=
           ["Add these missing keywords: " ++
              joinWith ", " ((ka.missing_keywords.sort (· ≤ ·)).take 5),
            "Tailor your experience descriptions to match job requirements",
            "Include relevant skills mentioned in the job posting"] }]
    else []

/-- Rule 4: word count below the minimum emits one MEDIUM item. -/
def wordCountBlock (ca : ContentResult) : List ATSRecommendation :=
  if ca.word_count < min_resume_length then
    [{ category := .content
       priority := .medium
       title := "Expand Resume Content"
       description := "Resume is too brief and may lack sufficient detail"
       impact := "Provides more context for ATS keyword matching"
       action_items :=
         ["Add more specific responsibilities and achievements",
          "Include quantifiable results and metrics",
          "Expand on technical skills and tools used"] }]
  else []

/-- Rule 5: readability below 70 emits one LOW item. -/
def readabilityBlock (readability : ℤ) : List ATSRecommendation :=
  if readability < 70 then
    [{ category := .readability
       priority := .low
       title := "Improve Resume Clarity"
       description := "Resume could be clearer and more readable"
       impact := "Better human reviewer experience after ATS screening"
       action_items :=
         ["Use shorter, clearer sentences",
          "Organize information in logical sections",
          "Use consistent formatting throughout"] }]
  else []

/-- Rule 6: fewer than five distinct strong action verbs emits one LOW item. -/
def verbBlock (ca : ContentResult) : List ATSRecommendation :=
  if ca.action_verbs_used.card < 5 then
    [{ category := .content
       priority := .low
       title := "Use Stronger Action Verbs"
       description := "Limited use of powerful action verbs in experience descriptions"
       impact := "Makes achievements more impactful and ATS-friendly"
       action_items :=
         ["Start bullet points with strong action verbs",
          "Use strong verbs to open each achievement",
          "Avoid passive voice and weak language"] }]
  else []

/-- `_generate_ats_recommendations`: the six rules in source order, capped at
ten items. -/
def _generate_ats_recommendations (fs : FormattingResult) (ka : KeywordAnalysis)
    (ca : ContentResult) (readability : ℤ) : List ATSRecommendation :=
  (fmtBlock fs ++ kwBlock ka ++ jobBlock ka ++ wordCountBlock ca ++
    readabilityBlock readability ++ verbBlock ca).take 10

/-! ### `analyze_resume` -/

/-- The error taxonomy of `analyze_resume`: both validation failures raise
`ValueError`; we distinguish them by their messages. -/
inductive AnalysisError where
  | invalidInput
  | emptyContent
deriving DecidableEq

/-- The `ATSAnalysisResult` schema (`analysis_timestamp` is wall-clock time
and `industry_insights` a static informational table; neither is referenced
by a claim and they are omitted from the model). -/
structure ATSAnalysisResult where
  overall_ats_score : ℤ
  formatting_score : ℤ
  keyword_score : ℤ
  content_structure_score : ℤ
  readability_score : ℤ
  keyword_analysis : KeywordAnalysis
  skill_gaps : SkillGapAnalysis
  recommendations : List ATSRecommendation
  job_match_percentage : Option ℚ
deriving DecidableEq

/-- `analyze_resume`: validate the input, run the sub-analyses and assemble
the result.  `none` models a `resume_content` that is not a dict. -/
def analyze_resume (resume_content : Option Resume)
    (job_description target_industry : Option String) :
    Except AnalysisError ATSAnalysisResult :=
  match resume_content with
  | none => .error .invalidInput
  | some r =>
    if r.isEmptyDict then .error .invalidInput
    else
      let resume_text := _extract_resume_text r
      if pyStrip resume_text = "" then .error .emptyContent
      else
        let fs := _analyze_formatting r
        let ka := _analyze_keywords r job_description target_industry
        let ca := _analyze_content_structure r
        let readability := _analyze_readability resume_text
        let overall := _calculate_overall_ats_score fs.score ka.score ca.score readability
        let recs := _generate_ats_recommendations fs ka ca readability
        let gaps := _analyze_skill_gaps r job_description target_industry
        .ok
          { overall_ats_score := overall
            formatting_score := fs.score
            keyword_score := ka.score
            content_structure_score := ca.score
            readability_score := readability
            keyword_analysis := ka
            skill_gaps := gaps
            recommendations := recs
            job_match_percentage :=
              if optArgTruthy job_description then ka.job_match_percentage else none }

/-! ### Trend tracking (`ats_repository._calculate_improvement_trend`) -/

/-- One entry of the stored score history; the `"score"` key may be absent. -/
structure ScoreEntry where
  score : Option ℤ
deriving DecidableEq

/-- The binary64 slope computation of `_calculate_improvement_trend`:
means by float division of the exact integer sums, then the rounded
subtract/multiply/add chains of the two Python `sum(...)` generators
(`** 2` on a float with exponent 2 is the correctly rounded square). -/
def floatTrendCore (score_values : List ℤ) : String :=
  let n : ℤ := score_values.length
  let x_values : List ℤ := (List.range score_values.length).map Int.ofNat
  let x_mean := dyDiv (dyOfInt x_values.sum) (dyOfInt n)
  let y_mean := dyDiv (dyOfInt score_values.sum) (dyOfInt n)
  let numerator := pySum ((x_values.zip score_values).map (fun p =>
    dyRound (dyMul (dyRound (dySub (dyOfInt p.1) x_mean))
      (dyRound (dySub (dyOfInt p.2) y_mean)))))
  let denominator := pySum (x_values.map (fun x =>
    let d := dyRound (dySub (dyOfInt x) x_mean)
    dyRound (dyMul d d)))
  if denominator.m = 0 then "stable"
  else
    let slope := dyDiv numerator denominator
    if dyLt (dyOfInt 2) slope then "improving"
    else if dyLt slope (dyOfInt (-2)) then "declining"
    else "stable"

/-- `_calculate_improvement_trend`: take the last five entries, read their
scores, and classify the slope of score against index, computed in
binary64 arithmetic exactly as the source does. -/
def _calculate_improvement_trend (scores : List ScoreEntry) : String :=
  if scores.length < 2 then "neutral" else
  let recent := scores.drop (scores.length - 5)
  let score_values : List ℤ := recent.filterMap (fun e => e.score)
  if score_values.length < 2 then "neutral" else
  floatTrendCore score_values

/-- The ordinary-least-squares slope of a list of values against their
indices 0, 1, …, n−1 (the textbook formula the spec describes). -/
def olsSlope (ys : List ℚ) : ℚ :=
  let n : ℚ := ys.length
  let xs : List ℚ := (List.range ys.length).map Nat.cast
  let xm := xs.sum / n
  let ym := ys.sum / n
  (((xs.zip ys).map (fun p => (p.1 - xm) * (p.2 - ym))).sum) /
    ((xs.map (fun x => (x - xm) ^ 2)).sum)

/-- A history whose entries all carry a score. -/
def mkHistory (l : List ℤ) : List ScoreEntry := l.map (fun s => ⟨some s⟩)

/-! ### Concrete sample inputs and auxiliary definitions for the claims -/

/-- A résumé whose skills are exactly python, django and docker
(spec §8, Scenario B). -/
def sampleResumeB : Resume :=
  { personal_info := none, professional_summary := none,
    work_experience := none, education := none,
    skills := some [("languages", ["python", "django", "docker"])],
    projects := none, certifications := none, extra_keys := false }

/-- The Scenario B job description. -/
def jdB : String := "Looking for a python django developer with docker experience"

/-- A résumé with a single made-up skill that matches no job keyword. -/
def sampleResumeC : Resume :=
  { personal_info := none, professional_summary := none,
    work_experience := none, education := none,
    skills := some [("misc", ["zzzz"])],
    projects := none, certifications := none, extra_keys := false }

/-- A résumé whose single declared skill is capitalised. -/
def sampleResumeP : Resume :=
  { personal_info := none, professional_summary := none,
    work_experience := none, education := none,
    skills := some [("languages", ["Python"])],
    projects := none, certifications := none, extra_keys := false }

/-- Apply a string transformation to every declared skill of a résumé. -/
def mapResumeSkills (f : String → String) (r : Resume) : Resume :=
  { r with skills := r.skills.map (fun l => l.map (fun p => (p.1, p.2.map f))) }

/-- The spec's description of the trend classifier: the ordinary
least-squares slope of the valid scores among the last five entries, with
±2 thresholds (slope taken as 0 in the degenerate zero-variance case, which
classifies as stable). -/
def specTrend (h : List ScoreEntry) : String :=
  if h.length < 2 then "neutral" else
  let ys : List ℚ := (h.drop (h.length - 5)).filterMap (fun e => e.score.map Int.cast)
  if ys.length < 2 then "neutral"
  else if olsSlope ys > 2 then "improving"
  else if olsSlope ys < -2 then "declining"
  else "stable"

/-! ### Claim-level predicates -/

/-- All five scores of a successful analysis lie in [0, 100]. -/
def scoresInRange : Except AnalysisError ATSAnalysisResult → Prop
  | .error _ => True
  | .ok res =>
    (0 ≤ res.overall_ats_score ∧ res.overall_ats_score ≤ 100) ∧
    (0 ≤ res.formatting_score ∧ res.formatting_score ≤ 100) ∧
    (0 ≤ res.keyword_score ∧ res.keyword_score ≤ 100) ∧
    (0 ≤ res.content_structure_score ∧ res.content_structure_score ≤ 100) ∧
    (0 ≤ res.readability_score ∧ res.readability_score ≤ 100)

/-- The partition and percentage invariants of a skill-gap result. -/
def gapPartition (g : SkillGapAnalysis) : Prop :=
  g.missing_skills = g.required_skills \ g.current_skills ∧
  g.matching_skills = g.required_skills ∩ g.current_skills ∧
  Disjoint g.missing_skills g.matching_skills ∧
  g.missing_skills ∪ g.matching_skills = g.required_skills ∧
  g.skill_match_percentage =
    (if g.required_skills = ∅ then (100 : ℚ)
     else (g.matching_skills.card : ℚ) / (g.required_skills.card : ℚ) * 100)

/-- The exact-arithmetic weighted sum of the four sub-scores of a result. -/
def exactWeightedSum (res : ATSAnalysisResult) : ℚ :=
  0.25 * (res.formatting_score : ℚ) + 0.35 * (res.keyword_score : ℚ) +
    0.25 * (res.content_structure_score : ℚ) + 0.15 * (res.readability_score : ℚ)

/-- The overall score of a successful analysis is the binary64 evaluation
of the weighted sum of its four sub-scores, truncated; it never exceeds the
truncation of the exact weighted sum and is at least that value minus one. -/
def overallFromSubscores : Except AnalysisError ATSAnalysisResult → Prop
  | .error _ => True
  | .ok res =>
    res.overall_ats_score =
      _calculate_overall_ats_score res.formatting_score res.keyword_score
        res.content_structure_score res.readability_score ∧
    pyTrunc (exactWeightedSum res) - 1 ≤ res.overall_ats_score ∧
    res.overall_ats_score ≤ pyTrunc (exactWeightedSum res)

/-- Priority order used for sortedness: high before medium before low. -/
def prioRank : PriorityLevel → ℕ
  | .high => 0
  | .medium => 1
  | .low => 2

/-- A recommendation list is priority-sorted when no item is preceded by an
item of strictly lower priority. -/
def prioritySorted (l : List ATSRecommendation) : Prop :=
  l.Pairwise (fun a b => prioRank a.priority ≤ prioRank b.priority)

/-- Whether `analyze_resume` succeeded. -/
def analysisOk : Except AnalysisError ATSAnalysisResult → Bool
  | .ok _ => true
  | .error _ => false

/-- The failure behaviour of `analyze_resume` as a function of its input. -/
def analyzeErrorSpec (rc : Option Resume) (jd ti : Option String) : Prop :=
  match rc with
  | none => analyze_resume none jd ti = .error .invalidInput
  | some r =>
    if r.isEmptyDict then analyze_resume (some r) jd ti = .error .invalidInput
    else if pyStrip (_extract_resume_text r) = "" then
      analyze_resume (some r) jd ti = .error .emptyContent
    else analysisOk (analyze_resume (some r) jd ti) = true

/-! ## Binary64 rounding lemmas -/

theorem two_zpow_pos (e : ℤ) : (0 : ℚ) < 2 ^ e := by positivity

theorem Dy.toRat_nonneg {d : Dy} (h : 0 ≤ d.m) : 0 ≤ d.toRat :=
  mul_nonneg (by exact_mod_cast h) (le_of_lt (two_zpow_pos d.e))

theorem dyOfInt_toRat (n : ℤ) : (dyOfInt n).toRat = (n : ℚ) := by
  unfold dyOfInt Dy.toRat
  norm_num

theorem dyMul_toRat (a b : Dy) : (dyMul a b).toRat = a.toRat * b.toRat := by
  unfold dyMul Dy.toRat
  dsimp only
  push_cast
  rw [zpow_add₀ (two_ne_zero)]
  ring

theorem dyAdd_toRat (a b : Dy) : (dyAdd a b).toRat = a.toRat + b.toRat := by
  unfold dyAdd Dy.toRat
  split
  · rename_i h
    dsimp only
    have hk : ((b.e - a.e).toNat : ℤ) = b.e - a.e := Int.toNat_of_nonneg (by omega)
    have h2 : ((2 : ℚ) ^ ((b.e - a.e).toNat)) = (2 : ℚ) ^ (b.e - a.e) := by
      rw [← zpow_natCast (2 : ℚ) ((b.e - a.e).toNat), hk]
    push_cast
    rw [h2, add_mul, mul_assoc, ← zpow_add₀ (two_ne_zero)]
    rw [sub_add_cancel]
  · rename_i h
    dsimp only
    have hk : ((a.e - b.e).toNat : ℤ) = a.e - b.e := Int.toNat_of_nonneg (by omega)
    have h2 : ((2 : ℚ) ^ ((a.e - b.e).toNat)) = (2 : ℚ) ^ (a.e - b.e) := by
      rw [← zpow_natCast (2 : ℚ) ((a.e - b.e).toNat), hk]
    push_cast
    rw [h2, add_mul, mul_assoc, ← zpow_add₀ (two_ne_zero)]
    rw [sub_add_cancel]

theorem dyMul_m_nonneg {a b : Dy} (ha : 0 ≤ a.m) (hb : 0 ≤ b.m) :
    0 ≤ (dyMul a b).m := mul_nonneg ha hb

theorem dyAdd_m_nonneg {a b : Dy} (ha : 0 ≤ a.m) (hb : 0 ≤ b.m) :
    0 ≤ (dyAdd a b).m := by
  unfold dyAdd
  split <;> dsimp only <;> positivity

theorem bitLenFuel_zero (fuel : ℕ) : bitLenFuel fuel 0 = 0 := by
  cases fuel <;> rfl

theorem bitLenFuel_bounds :
    ∀ fuel n, 0 < n → n ≤ fuel →
      2 ^ (bitLenFuel fuel n - 1) ≤ n ∧ n < 2 ^ bitLenFuel fuel n := by
  intro fuel
  induction fuel with
  | zero => intro n h1 h2; omega
  | succ f ih =>
    intro n h1 h2
    rw [show bitLenFuel (f + 1) n = if n = 0 then 0 else bitLenFuel f (n / 2) + 1 from rfl]
    rw [if_neg (by omega)]
    by_cases hn : n / 2 = 0
    · have hn1 : n = 1 := by omega
      subst hn1
      rw [show (1 : ℕ) / 2 = 0 from rfl, bitLenFuel_zero]
      norm_num
    · have h2' : n / 2 ≤ f := by
        have := Nat.div_lt_self h1 (by norm_num : 1 < 2)
        omega
      obtain ⟨lo, hi⟩ := ih (n / 2) (by omega) h2'
      have hL1 : 1 ≤ bitLenFuel f (n / 2) := by
        by_contra hc
        push_neg at hc
        have h0 : bitLenFuel f (n / 2) = 0 := by omega
        rw [h0] at hi
        simp at hi
        omega
      constructor
      · have hpow : (2 : ℕ) ^ (bitLenFuel f (n / 2) + 1 - 1) =
            2 * 2 ^ (bitLenFuel f (n / 2) - 1) := by
          rw [Nat.add_sub_cancel, ← pow_succ']
          congr 1
          omega
        rw [hpow]
        omega
      · have hpow : (2 : ℕ) ^ (bitLenFuel f (n / 2) + 1) =
            2 * 2 ^ bitLenFuel f (n / 2) := by
          rw [pow_succ]
          ring
        omega

theorem bitLen_bounds {n : ℕ} (h : 0 < n) :
    2 ^ (bitLen n - 1) ≤ n ∧ n < 2 ^ bitLen n :=
  bitLenFuel_bounds n n h le_rfl

theorem roundMantissa_small {N : ℕ} (h : bitLen N ≤ 53) : roundMantissa N = (N, 0) := by
  unfold roundMantissa
  rw [if_pos h]

theorem roundMantissa_err {N : ℕ} (h : 53 < bitLen N) :
    (roundMantissa N).2 = bitLen N - 53 ∧
    2 * ((roundMantissa N).1 * 2 ^ (roundMantissa N).2) ≤ 2 * N + 2 ^ (roundMantissa N).2 ∧
    2 * N ≤ 2 * ((roundMantissa N).1 * 2 ^ (roundMantissa N).2) + 2 ^ (roundMantissa N).2 := by
  unfold roundMantissa
  rw [if_neg (by omega)]
  dsimp only
  have hs1 : 1 ≤ bitLen N - 53 := by omega
  have hmod : N % 2 ^ (bitLen N - 53) < 2 ^ (bitLen N - 53) :=
    Nat.mod_lt _ (by positivity)
  have hdivmod : 2 ^ (bitLen N - 53) * (N / 2 ^ (bitLen N - 53)) + N % 2 ^ (bitLen N - 53) = N :=
    Nat.div_add_mod N (2 ^ (bitLen N - 53))
  have hhalf : (2 : ℕ) ^ (bitLen N - 53) = 2 * 2 ^ (bitLen N - 53 - 1) := by
    rw [← pow_succ']
    congr 1
    omega
  have hd1 : (N / 2 ^ (bitLen N - 53) + 1) * 2 ^ (bitLen N - 53) =
      2 ^ (bitLen N - 53) * (N / 2 ^ (bitLen N - 53)) + 2 ^ (bitLen N - 53) := by ring
  have hd2 : (N / 2 ^ (bitLen N - 53)) * 2 ^ (bitLen N - 53) =
      2 ^ (bitLen N - 53) * (N / 2 ^ (bitLen N - 53)) := by ring
  split_ifs <;> dsimp only <;> refine ⟨rfl, ?_, ?_⟩ <;> omega

theorem dyRound_m_nonneg {d : Dy} (h : 0 ≤ d.m) : 0 ≤ (dyRound d).m := by
  unfold dyRound
  split_ifs with h0 h1
  · simp
  · dsimp only
    positivity
  · omega

theorem dyRound_toRat_nonneg {d : Dy} (h : 0 ≤ d.m) : 0 ≤ (dyRound d).toRat :=
  Dy.toRat_nonneg (dyRound_m_nonneg h)

theorem dyRound_err {d : Dy} (h : 0 ≤ d.m) :
    |(dyRound d).toRat - d.toRat| ≤ d.toRat * dyEps := by
  rcases eq_or_lt_of_le h with h0 | hpos
  · have hm : d.m = 0 := h0.symm
    unfold dyRound Dy.toRat
    rw [if_pos hm, hm]
    simp [dyEps]
  · unfold dyRound
    rw [if_neg (by omega), if_pos hpos]
    have hNm : ((d.m.toNat : ℤ) : ℚ) = (d.m : ℚ) := by
      exact_mod_cast congrArg (Int.cast : ℤ → ℚ) (Int.toNat_of_nonneg h)
    have hNpos : 0 < d.m.toNat := by omega
    by_cases hbl : bitLen d.m.toNat ≤ 53
    · rw [roundMantissa_small hbl]
      unfold Dy.toRat
      dsimp only
      rw [show d.e + ((0 : ℕ) : ℤ) = d.e by simp]
      rw [hNm, sub_self, abs_zero]
      exact mul_nonneg (Dy.toRat_nonneg h) (by norm_num [dyEps])
    · obtain ⟨hseq, hub, hlb⟩ := roundMantissa_err (N := d.m.toNat) (by omega)
      obtain ⟨hlo, -⟩ := bitLen_bounds hNpos
      unfold Dy.toRat
      dsimp only
      set N := d.m.toNat with hN
      set Q := (roundMantissa N).1 with hQ
      set S := (roundMantissa N).2 with hS
      have hzs : (2 : ℚ) ^ (d.e + (S : ℤ)) = (2 : ℚ) ^ (S : ℕ) * (2 : ℚ) ^ d.e := by
        rw [zpow_add₀ (two_ne_zero), ← zpow_natCast (2 : ℚ) S]
        ring
      have hdiff : ((Q : ℤ) : ℚ) * (2 : ℚ) ^ (d.e + (S : ℤ)) - (d.m : ℚ) * 2 ^ d.e =
          ((Q : ℚ) * (2 : ℚ) ^ (S : ℕ) - (N : ℚ)) * (2 : ℚ) ^ d.e := by
        rw [hzs, ← hNm]
        push_cast
        ring
      rw [hdiff, abs_mul, abs_of_pos (two_zpow_pos d.e)]
      -- |Q·2^S − N| ≤ 2^S / 2 from the doubled integer inequalities
      have hubQ : (2 : ℚ) * ((Q : ℚ) * 2 ^ (S : ℕ)) ≤ 2 * (N : ℚ) + 2 ^ (S : ℕ) := by
        exact_mod_cast hub
      have hlbQ : 2 * (N : ℚ) ≤ 2 * ((Q : ℚ) * 2 ^ (S : ℕ)) + 2 ^ (S : ℕ) := by
        exact_mod_cast hlb
      have habs : |(Q : ℚ) * (2 : ℚ) ^ (S : ℕ) - (N : ℚ)| ≤ (2 : ℚ) ^ (S : ℕ) / 2 := by
        rw [abs_le]
        constructor <;> linarith
      -- N is large: 2^(S+52) ≤ N
      have hNbig : (2 : ℚ) ^ (S : ℕ) * 2 ^ 52 ≤ (N : ℚ) := by
        have h1 : (2 : ℕ) ^ (S + 52) ≤ N := by
          have : S + 52 = bitLen N - 1 := by omega
          rw [this]
          exact hlo
        calc (2 : ℚ) ^ (S : ℕ) * 2 ^ 52 = (2 : ℚ) ^ (S + 52) := by rw [pow_add]
        _ ≤ (N : ℚ) := by exact_mod_cast h1
      -- assemble
      have hfinal : (2 : ℚ) ^ (S : ℕ) / 2 ≤ (N : ℚ) * dyEps := by
        rw [dyEps, div_le_iff (by norm_num : (0 : ℚ) < 2)]
        rw [show (N : ℚ) * (1 / 2 ^ 53) * 2 = (N : ℚ) * 2 / 2 ^ 53 by ring]
        rw [le_div_iff (by norm_num : (0 : ℚ) < 2 ^ 53)]
        have h252 : (2 : ℚ) ^ 53 = 2 * 2 ^ 52 := by norm_num
        nlinarith [hNbig]
      calc |(Q : ℚ) * (2 : ℚ) ^ (S : ℕ) - (N : ℚ)| * (2 : ℚ) ^ d.e
          ≤ ((2 : ℚ) ^ (S : ℕ) / 2) * (2 : ℚ) ^ d.e :=
            mul_le_mul_of_nonneg_right habs (le_of_lt (two_zpow_pos d.e))
        _ ≤ ((N : ℚ) * dyEps) * (2 : ℚ) ^ d.e :=
            mul_le_mul_of_nonneg_right hfinal (le_of_lt (two_zpow_pos d.e))
        _ = (d.m : ℚ) * 2 ^ d.e * dyEps := by rw [← hNm]; push_cast; ring

theorem dyRound_le {d : Dy} (h : 0 ≤ d.m) :
    (dyRound d).toRat ≤ d.toRat * (1 + dyEps) := by
  have he := abs_le.mp (dyRound_err h)
  nlinarith [he.2]

theorem dyRound_ge {d : Dy} (h : 0 ≤ d.m) :
    d.toRat * (1 - dyEps) ≤ (dyRound d).toRat := by
  have he := abs_le.mp (dyRound_err h)
  nlinarith [he.1]

theorem nat_floor_div (a b : ℕ) (hb : 0 < b) : ⌊(a : ℚ) / (b : ℚ)⌋ = (a / b : ℕ) := by
  have hb' : (0 : ℚ) < (b : ℚ) := by exact_mod_cast hb
  rw [Int.floor_eq_iff]
  constructor
  · rw [le_div_iff hb']
    push_cast
    have := Nat.div_mul_le_self a b
    exact_mod_cast this
  · rw [div_lt_iff hb']
    have h1 : a < (a / b + 1) * b := (Nat.div_lt_iff_lt_mul hb).mp (Nat.lt_succ_self _)
    push_cast
    exact_mod_cast h1

theorem dyTrunc_eq_floor {d : Dy} (h : 0 ≤ d.m) : dyTruncToInt d = ⌊d.toRat⌋ := by
  unfold dyTruncToInt Dy.toRat
  split_ifs with he
  · have h2 : (2 : ℚ) ^ d.e = ((2 ^ d.e.toNat : ℤ) : ℚ) := by
      push_cast
      rw [← zpow_natCast (2 : ℚ), Int.toNat_of_nonneg he]
    rw [h2, ← Int.cast_mul, Int.floor_intCast]
  · have hke : d.e = -(((-d.e).toNat : ℕ) : ℤ) := by omega
    have hval : (d.m : ℚ) * (2 : ℚ) ^ d.e =
        ((d.m.natAbs : ℕ) : ℚ) / ((2 ^ (-d.e).toNat : ℕ) : ℚ) := by
      rw [hke, zpow_neg, zpow_natCast]
      have habs : ((d.m.natAbs : ℕ) : ℚ) = (d.m : ℚ) := by
        rw [Int.cast_natAbs, abs_of_nonneg]
        exact_mod_cast h
      rw [habs]
      push_cast
      rw [neg_neg, Int.toNat_natCast]
      ring
    rw [hval, nat_floor_div _ _ (by positivity)]

theorem dyRound_bounds {d : Dy} {lo hi B : ℚ} (hm : 0 ≤ d.m)
    (hlo : lo ≤ d.toRat) (hhi : d.toRat ≤ hi) (hB : hi ≤ B) :
    lo - B * dyEps ≤ (dyRound d).toRat ∧ (dyRound d).toRat ≤ hi + B * dyEps := by
  have h1 := dyRound_le hm
  have h2 := dyRound_ge hm
  have h0 : 0 ≤ d.toRat := Dy.toRat_nonneg hm
  have hε0 : (0 : ℚ) ≤ dyEps := by norm_num [dyEps]
  have hprod : 0 ≤ dyEps * (B - d.toRat) :=
    mul_nonneg hε0 (by linarith)
  constructor <;> nlinarith [hprod]

theorem w25_toRat : w25.toRat = 1 / 4 := by
  show ((1 : ℤ) : ℚ) * (2 : ℚ) ^ (-2 : ℤ) = 1 / 4
  rw [show (-2 : ℤ) = -((2 : ℕ) : ℤ) by norm_num, zpow_neg, zpow_natCast]
  norm_num

theorem w35_toRat : w35.toRat = 6305039478318694 / 2 ^ 54 := by
  show ((6305039478318694 : ℤ) : ℚ) * (2 : ℚ) ^ (-54 : ℤ) = _
  rw [show (-54 : ℤ) = -((54 : ℕ) : ℤ) by norm_num, zpow_neg, zpow_natCast]
  norm_num

theorem w15_toRat : w15.toRat = 5404319552844595 / 2 ^ 55 := by
  show ((5404319552844595 : ℤ) : ℚ) * (2 : ℚ) ^ (-55 : ℤ) = _
  rw [show (-55 : ℤ) = -((55 : ℕ) : ℤ) by norm_num, zpow_neg, zpow_natCast]
  norm_num

theorem w35_lb : 7 / 20 - dyEps / 2 ≤ w35.toRat := by
  rw [w35_toRat]; norm_num [dyEps]

theorem w35_ub : w35.toRat ≤ 7 / 20 := by
  rw [w35_toRat]; norm_num

theorem w15_lb : 3 / 20 - dyEps / 4 ≤ w15.toRat := by
  rw [w15_toRat]; norm_num [dyEps]

theorem w15_ub : w15.toRat ≤ 3 / 20 := by
  rw [w15_toRat]; norm_num

theorem overall_core {q1 q2 q3 q4 : Dy} {a b c d : ℚ} {M : ℤ}
    (h1m : 0 ≤ q1.m) (h2m : 0 ≤ q2.m) (h3m : 0 ≤ q3.m) (h4m : 0 ≤ q4.m)
    (ha0 : 0 ≤ a) (ha1 : a ≤ 25) (hb0 : 0 ≤ b) (hb1 : b ≤ 35)
    (hc0 : 0 ≤ c) (hc1 : c ≤ 25) (hd0 : 0 ≤ d) (hd1 : d ≤ 15)
    (h1l : a - 25 * dyEps ≤ q1.toRat) (h1u : q1.toRat ≤ a + 25 * dyEps)
    (h2l : b - 85 * dyEps ≤ q2.toRat) (h2u : q2.toRat ≤ b + 35 * dyEps)
    (h3l : c - 25 * dyEps ≤ q3.toRat) (h3u : q3.toRat ≤ c + 25 * dyEps)
    (h4l : d - 40 * dyEps ≤ q4.toRat) (h4u : q4.toRat ≤ d + 15 * dyEps)
    (hM1 : (M : ℚ) ≤ a + b + c + d)
    (hM19 : a + b + c + d ≤ (M : ℚ) + 19 / 20) :
    0 ≤ dyTruncToInt (dyRound (dyAdd (dyRound (dyAdd (dyRound (dyAdd q1 q2)) q3)) q4)) ∧
    dyTruncToInt (dyRound (dyAdd (dyRound (dyAdd (dyRound (dyAdd q1 q2)) q3)) q4)) ≤ 100 ∧
    M - 1 ≤ dyTruncToInt (dyRound (dyAdd (dyRound (dyAdd (dyRound (dyAdd q1 q2)) q3)) q4)) ∧
    dyTruncToInt (dyRound (dyAdd (dyRound (dyAdd (dyRound (dyAdd q1 q2)) q3)) q4)) ≤ M := by
  have hε0 : (0 : ℚ) ≤ dyEps := by norm_num [dyEps]
  have hεsmall : dyEps ≤ 1 / 1000000 := by norm_num [dyEps]
  have hε423 : 423 * dyEps < 1 / 20 := by norm_num [dyEps]
  have hb1v := dyAdd_toRat q1 q2
  have hb1m : 0 ≤ (dyAdd q1 q2).m := dyAdd_m_nonneg h1m h2m
  have hS1 := dyRound_bounds hb1m
    (show a + b - 110 * dyEps ≤ (dyAdd q1 q2).toRat by rw [hb1v]; linarith)
    (show (dyAdd q1 q2).toRat ≤ a + b + 60 * dyEps by rw [hb1v]; linarith)
    (show a + b + 60 * dyEps ≤ 61 by linarith)
  have hS1m : 0 ≤ (dyRound (dyAdd q1 q2)).m := dyRound_m_nonneg hb1m
  have hb2v := dyAdd_toRat (dyRound (dyAdd q1 q2)) q3
  have hb2m : 0 ≤ (dyAdd (dyRound (dyAdd q1 q2)) q3).m := dyAdd_m_nonneg hS1m h3m
  have hS2 := dyRound_bounds hb2m
    (show a + b + c - 196 * dyEps ≤ (dyAdd (dyRound (dyAdd q1 q2)) q3).toRat by
      rw [hb2v]; linarith [hS1.1])
    (show (dyAdd (dyRound (dyAdd q1 q2)) q3).toRat ≤ a + b + c + 146 * dyEps by
      rw [hb2v]; linarith [hS1.2])
    (show a + b + c + 146 * dyEps ≤ 86 by linarith)
  have hS2m : 0 ≤ (dyRound (dyAdd (dyRound (dyAdd q1 q2)) q3)).m := dyRound_m_nonneg hb2m
  have hb3v := dyAdd_toRat (dyRound (dyAdd (dyRound (dyAdd q1 q2)) q3)) q4
  have hb3m : 0 ≤ (dyAdd (dyRound (dyAdd (dyRound (dyAdd q1 q2)) q3)) q4).m :=
    dyAdd_m_nonneg hS2m h4m
  have hS3 := dyRound_bounds hb3m
    (show a + b + c + d - 322 * dyEps ≤
        (dyAdd (dyRound (dyAdd (dyRound (dyAdd q1 q2)) q3)) q4).toRat by
      rw [hb3v]; linarith [hS2.1])
    (show (dyAdd (dyRound (dyAdd (dyRound (dyAdd q1 q2)) q3)) q4).toRat ≤
        a + b + c + d + 247 * dyEps by
      rw [hb3v]; linarith [hS2.2])
    (show a + b + c + d + 247 * dyEps ≤ 101 by linarith)
  have hS3m : 0 ≤ (dyRound (dyAdd (dyRound (dyAdd (dyRound (dyAdd q1 q2)) q3)) q4)).m :=
    dyRound_m_nonneg hb3m
  rw [dyTrunc_eq_floor hS3m]
  have hFnn : 0 ≤ (dyRound (dyAdd (dyRound (dyAdd (dyRound (dyAdd q1 q2)) q3)) q4)).toRat :=
    Dy.toRat_nonneg hS3m
  have hFub : (dyRound (dyAdd (dyRound (dyAdd (dyRound (dyAdd q1 q2)) q3)) q4)).toRat ≤
      a + b + c + d + 348 * dyEps := by linarith [hS3.2]
  have hFlb : a + b + c + d - 423 * dyEps ≤
      (dyRound (dyAdd (dyRound (dyAdd (dyRound (dyAdd q1 q2)) q3)) q4)).toRat := by
    linarith [hS3.1]
  refine ⟨Int.floor_nonneg.mpr hFnn, ?_, ?_, ?_⟩
  · have h101 : (dyRound (dyAdd (dyRound (dyAdd (dyRound (dyAdd q1 q2)) q3)) q4)).toRat <
        ((101 : ℤ) : ℚ) := by push_cast; linarith
    have := Int.floor_lt.mpr h101
    omega
  · exact Int.le_floor.mpr (by push_cast; linarith)
  · have hlt : (dyRound (dyAdd (dyRound (dyAdd (dyRound (dyAdd q1 q2)) q3)) q4)).toRat <
        ((M + 1 : ℤ) : ℚ) := by push_cast; linarith
    have := Int.floor_lt.mpr hlt
    omega

set_option maxHeartbeats 1600000 in
theorem overall_float_key {f k c r : ℤ}
    (hf0 : 0 ≤ f) (hf1 : f ≤ 100) (hk0 : 0 ≤ k) (hk1 : k ≤ 100)
    (hc0 : 0 ≤ c) (hc1 : c ≤ 100) (hr0 : 0 ≤ r) (hr1 : r ≤ 100) :
    0 ≤ _calculate_overall_ats_score f k c r ∧
    _calculate_overall_ats_score f k c r ≤ 100 ∧
    ⌊((5 * f + 7 * k + 5 * c + 3 * r : ℤ) : ℚ) / 20⌋ - 1 ≤
      _calculate_overall_ats_score f k c r ∧
    _calculate_overall_ats_score f k c r ≤ ⌊((5 * f + 7 * k + 5 * c + 3 * r : ℤ) : ℚ) / 20⌋ := by
  have hfq0 : (0 : ℚ) ≤ (f : ℚ) := by exact_mod_cast hf0
  have hfq1 : (f : ℚ) ≤ 100 := by exact_mod_cast hf1
  have hkq0 : (0 : ℚ) ≤ (k : ℚ) := by exact_mod_cast hk0
  have hkq1 : (k : ℚ) ≤ 100 := by exact_mod_cast hk1
  have hcq0 : (0 : ℚ) ≤ (c : ℚ) := by exact_mod_cast hc0
  have hcq1 : (c : ℚ) ≤ 100 := by exact_mod_cast hc1
  have hrq0 : (0 : ℚ) ≤ (r : ℚ) := by exact_mod_cast hr0
  have hrq1 : (r : ℚ) ≤ 100 := by exact_mod_cast hr1
  have hε0 : (0 : ℚ) ≤ dyEps := by norm_num [dyEps]
  -- node values before rounding
  have ha1v : (dyMul (dyOfInt f) w25).toRat = (f : ℚ) / 4 := by
    rw [dyMul_toRat, dyOfInt_toRat, w25_toRat]; ring
  have ha2v : (dyMul (dyOfInt k) w35).toRat = (k : ℚ) * w35.toRat := by
    rw [dyMul_toRat, dyOfInt_toRat]
  have ha3v : (dyMul (dyOfInt c) w25).toRat = (c : ℚ) / 4 := by
    rw [dyMul_toRat, dyOfInt_toRat, w25_toRat]; ring
  have ha4v : (dyMul (dyOfInt r) w15).toRat = (r : ℚ) * w15.toRat := by
    rw [dyMul_toRat, dyOfInt_toRat]
  -- mantissa signs
  have hw25m : (0 : ℤ) ≤ w25.m := by decide
  have hw35m : (0 : ℤ) ≤ w35.m := by decide
  have hw15m : (0 : ℤ) ≤ w15.m := by decide
  have ha1m : 0 ≤ (dyMul (dyOfInt f) w25).m := dyMul_m_nonneg hf0 hw25m
  have ha2m : 0 ≤ (dyMul (dyOfInt k) w35).m := dyMul_m_nonneg hk0 hw35m
  have ha3m : 0 ≤ (dyMul (dyOfInt c) w25).m := dyMul_m_nonneg hc0 hw25m
  have ha4m : 0 ≤ (dyMul (dyOfInt r) w15).m := dyMul_m_nonneg hr0 hw15m
  have hP1m : 0 ≤ (dyRound (dyMul (dyOfInt f) w25)).m := dyRound_m_nonneg ha1m
  have hP2m : 0 ≤ (dyRound (dyMul (dyOfInt k) w35)).m := dyRound_m_nonneg ha2m
  have hP3m : 0 ≤ (dyRound (dyMul (dyOfInt c) w25)).m := dyRound_m_nonneg ha3m
  have hP4m : 0 ≤ (dyRound (dyMul (dyOfInt r) w15)).m := dyRound_m_nonneg ha4m
  -- rounded products
  have hP1 := dyRound_bounds ha1m (le_of_eq ha1v.symm) (le_of_eq ha1v)
    (by linarith : (f : ℚ) / 4 ≤ 25)
  have hP2pre_lo : 7 * (k : ℚ) / 20 - 50 * dyEps ≤ (dyMul (dyOfInt k) w35).toRat := by
    rw [ha2v]
    have h1 := mul_le_mul_of_nonneg_left w35_lb hkq0
    have h2 : 0 ≤ dyEps * (100 - (k : ℚ)) := mul_nonneg hε0 (by linarith)
    nlinarith [h1, h2]
  have hP2pre_hi : (dyMul (dyOfInt k) w35).toRat ≤ 7 * (k : ℚ) / 20 := by
    rw [ha2v]
    have h1 := mul_le_mul_of_nonneg_left w35_ub hkq0
    linarith
  have hP2 := dyRound_bounds ha2m hP2pre_lo hP2pre_hi
    (by linarith : 7 * (k : ℚ) / 20 ≤ 35)
  have hP3 := dyRound_bounds ha3m (le_of_eq ha3v.symm) (le_of_eq ha3v)
    (by linarith : (c : ℚ) / 4 ≤ 25)
  have hP4pre_lo : 3 * (r : ℚ) / 20 - 25 * dyEps ≤ (dyMul (dyOfInt r) w15).toRat := by
    rw [ha4v]
    have h1 := mul_le_mul_of_nonneg_left w15_lb hrq0
    have h2 : 0 ≤ dyEps * (100 - (r : ℚ)) := mul_nonneg hε0 (by linarith)
    nlinarith [h1, h2]
  have hP4pre_hi : (dyMul (dyOfInt r) w15).toRat ≤ 3 * (r : ℚ) / 20 := by
    rw [ha4v]
    have h1 := mul_le_mul_of_nonneg_left w15_ub hrq0
    linarith
  have hP4 := dyRound_bounds ha4m hP4pre_lo hP4pre_hi
    (by linarith : 3 * (r : ℚ) / 20 ≤ 15)
  -- massage the leaf bounds into the shape of overall_core
  have hP1l : (f : ℚ) / 4 - 25 * dyEps ≤ (dyRound (dyMul (dyOfInt f) w25)).toRat := by
    linarith [hP1.1]
  have hP1u : (dyRound (dyMul (dyOfInt f) w25)).toRat ≤ (f : ℚ) / 4 + 25 * dyEps := hP1.2
  have hP2l : 7 * (k : ℚ) / 20 - 85 * dyEps ≤ (dyRound (dyMul (dyOfInt k) w35)).toRat := by
    linarith [hP2.1]
  have hP2u : (dyRound (dyMul (dyOfInt k) w35)).toRat ≤ 7 * (k : ℚ) / 20 + 35 * dyEps := hP2.2
  have hP3l : (c : ℚ) / 4 - 25 * dyEps ≤ (dyRound (dyMul (dyOfInt c) w25)).toRat := by
    linarith [hP3.1]
  have hP3u : (dyRound (dyMul (dyOfInt c) w25)).toRat ≤ (c : ℚ) / 4 + 25 * dyEps := hP3.2
  have hP4l : 3 * (r : ℚ) / 20 - 40 * dyEps ≤ (dyRound (dyMul (dyOfInt r) w15)).toRat := by
    linarith [hP4.1]
  have hP4u : (dyRound (dyMul (dyOfInt r) w15)).toRat ≤ 3 * (r : ℚ) / 20 + 15 * dyEps := hP4.2
  -- the exact weighted sum is a multiple of 1/20
  have hEeq : ((5 * f + 7 * k + 5 * c + 3 * r : ℤ) : ℚ) / 20 =
      (f : ℚ) / 4 + 7 * (k : ℚ) / 20 + (c : ℚ) / 4 + 3 * (r : ℚ) / 20 := by
    push_cast; ring
  set M := ⌊((5 * f + 7 * k + 5 * c + 3 * r : ℤ) : ℚ) / 20⌋ with hMdef
  have hM1 : (M : ℚ) ≤ (f : ℚ) / 4 + 7 * (k : ℚ) / 20 + (c : ℚ) / 4 + 3 * (r : ℚ) / 20 := by
    rw [← hEeq]
    exact Int.floor_le _
  have hM19 : (f : ℚ) / 4 + 7 * (k : ℚ) / 20 + (c : ℚ) / 4 + 3 * (r : ℚ) / 20 ≤
      (M : ℚ) + 19 / 20 := by
    rw [← hEeq]
    have hM2 : ((5 * f + 7 * k + 5 * c + 3 * r : ℤ) : ℚ) / 20 < (M : ℚ) + 1 :=
      Int.lt_floor_add_one _
    have h3 : (5 * f + 7 * k + 5 * c + 3 * r - 20 * M : ℤ) < 20 := by
      have h2 : ((5 * f + 7 * k + 5 * c + 3 * r - 20 * M : ℤ) : ℚ) < 20 := by
        push_cast
        linarith
      exact_mod_cast h2
    have h4 : (5 * f + 7 * k + 5 * c + 3 * r - 20 * M : ℤ) ≤ 19 := by omega
    have h5 : ((5 * f + 7 * k + 5 * c + 3 * r - 20 * M : ℤ) : ℚ) ≤ 19 := by exact_mod_cast h4
    push_cast at h5
    linarith
  unfold _calculate_overall_ats_score
  exact overall_core hP1m hP2m hP3m hP4m
    (by linarith) (by linarith) (by linarith) (by linarith)
    (by linarith) (by linarith) (by linarith) (by linarith)
    hP1l hP1u hP2l hP2u hP3l hP3u hP4l hP4u hM1 hM19

/-! ## Helper lemmas -/

theorem ite_int_nonneg (b : Prop) [Decidable b] (x y : ℤ) (hx : 0 ≤ x) (hy : 0 ≤ y) :
    0 ≤ if b then x else y := by
  split <;> assumption

theorem clamp_mem_Icc (s : ℤ) : 0 ≤ min 100 (max 0 s) ∧ min 100 (max 0 s) ≤ 100 :=
  ⟨le_min (by norm_num) (le_max_left 0 s), min_le_left 100 _⟩

theorem pyTrunc_nonneg {q : ℚ} (h : 0 ≤ q) : 0 ≤ pyTrunc q := by
  unfold pyTrunc
  rw [if_neg (not_lt.mpr h)]
  exact Int.floor_nonneg.mpr h

theorem pyTrunc_le_of_le {q : ℚ} {n : ℤ} (h : q ≤ n) : pyTrunc q ≤ n := by
  unfold pyTrunc
  split
  · exact Int.ceil_le.mpr h
  · exact Int.floor_le_floor h |>.trans (by simp)

/-- `_analyze_formatting` only subtracts non-negative penalties from 100 and
floors the result at 0. -/
theorem formatting_score_bounds (r : Resume) :
    0 ≤ (_analyze_formatting r).score ∧ (_analyze_formatting r).score ≤ 100 := by
  have key : ∀ (a b c d e : ℤ), 0 ≤ a → 0 ≤ b → 0 ≤ c → 0 ≤ d → 0 ≤ e →
      0 ≤ max 0 (100 - a - b - c - d - e) ∧
        max 0 (100 - a - b - c - d - e) ≤ 100 := by
    intro a b c d e ha hb hc hd he
    exact ⟨le_max_left _ _, max_le (by norm_num) (by omega)⟩
  exact key _ _ _ _ _ (by positivity) (by positivity)
    (ite_int_nonneg _ _ _ (by norm_num) le_rfl)
    (by positivity)
    (ite_int_nonneg _ _ _ (by norm_num) le_rfl)

/-- `_calculate_keyword_score` clamps to [0, 100] explicitly. -/
theorem keyword_score_bounds (rk jk : Finset String) (ik : List String) (t : String) :
    0 ≤ _calculate_keyword_score rk jk ik t ∧ _calculate_keyword_score rk jk ik t ≤ 100 :=
  clamp_mem_Icc _

/-- `_analyze_content_structure` only subtracts non-negative penalties from
100 and floors the result at 0. -/
theorem content_score_bounds (r : Resume) :
    0 ≤ (_analyze_content_structure r).score ∧ (_analyze_content_structure r).score ≤ 100 := by
  have key : ∀ (a b c d e : ℤ), 0 ≤ a → 0 ≤ b → 0 ≤ c → 0 ≤ d → 0 ≤ e →
      0 ≤ max 0 (100 - a - b - c - d - e) ∧
        max 0 (100 - a - b - c - d - e) ≤ 100 := by
    intro a b c d e ha hb hc hd he
    exact ⟨le_max_left _ _, max_le (by norm_num) (by omega)⟩
  exact key _ _ _ _ _
    (ite_int_nonneg _ _ _ (by norm_num) (ite_int_nonneg _ _ _ (by norm_num) le_rfl))
    (ite_int_nonneg _ _ _ (ite_int_nonneg _ _ _ (by norm_num) le_rfl) le_rfl)
    (ite_int_nonneg _ _ _ le_rfl (by norm_num))
    (ite_int_nonneg _ _ _ (by norm_num) (ite_int_nonneg _ _ _ (by norm_num) le_rfl))
    (ite_int_nonneg _ _ _ (by norm_num) le_rfl)

/-- `_analyze_readability` returns 0 on degenerate input and otherwise clamps
to [0, 100]. -/
theorem readability_bounds (t : String) :
    0 ≤ _analyze_readability t ∧ _analyze_readability t ≤ 100 := by
  unfold _analyze_readability
  split
  · exact ⟨le_rfl, by norm_num⟩
  · dsimp only
    split
    · exact ⟨le_rfl, by norm_num⟩
    · exact ⟨le_max_left _ _, max_le (by norm_num) (min_le_left _ _)⟩

/-- The weighted overall score of four scores in [0, 100] lies in [0, 100]. -/
theorem overall_score_bounds {f k c r : ℤ}
    (hf : 0 ≤ f ∧ f ≤ 100) (hk : 0 ≤ k ∧ k ≤ 100)
    (hc : 0 ≤ c ∧ c ≤ 100) (hr : 0 ≤ r ∧ r ≤ 100) :
    0 ≤ _calculate_overall_ats_score f k c r ∧
      _calculate_overall_ats_score f k c r ≤ 100 := by
  obtain ⟨h1, h2, -, -⟩ :=
    overall_float_key hf.1 hf.2 hk.1 hk.2 hc.1 hc.2 hr.1 hr.2
  exact ⟨h1, h2⟩

theorem analyze_keywords_score_bounds (r : Resume) (jd ti : Option String) :
    0 ≤ (_analyze_keywords r jd ti).score ∧ (_analyze_keywords r jd ti).score ≤ 100 := by
  unfold _analyze_keywords
  exact keyword_score_bounds _ _ _ _

set_option maxHeartbeats 1600000 in
/-- C1: for every résumé dict on which `analyze_resume` returns a result
(any job description, any industry), each of the four sub-scores and the
overall ATS score in the returned `ATSAnalysisResult` is an integer in
[0, 100]. -/
theorem C1_all_scores_in_range (rc : Option Resume) (jd ti : Option String) :
    scoresInRange (analyze_resume rc jd ti) := by
  rcases rc with - | r
  · trivial
  · unfold analyze_resume
    dsimp only
    split_ifs with h1 h2
    · trivial
    · trivial
    all_goals
      exact ⟨overall_score_bounds (formatting_score_bounds r)
          (analyze_keywords_score_bounds r jd ti) (content_score_bounds r)
          (readability_bounds _),
        formatting_score_bounds r, analyze_keywords_score_bounds r jd ti,
        content_score_bounds r, readability_bounds _⟩

/-- C2: for every résumé, job description and industry, the returned
`SkillGapAnalysis` satisfies `missing = required − current` and
`matching = required ∩ current`, so the two are disjoint and their union is
exactly `required`, and the match percentage is
`|matching| / |required| × 100`, equal to 100 when `required` is empty. -/
theorem C2_skill_gap_partition (r : Resume) (jd ti : Option String) :
    gapPartition (_analyze_skill_gaps r jd ti) := by
  unfold _analyze_skill_gaps gapPartition
  dsimp only
  refine ⟨rfl, rfl, Finset.disjoint_sdiff_inter _ _, Finset.sdiff_union_inter _ _, ?_⟩
  by_cases h : (if optArgTruthy jd then
      (extract_skills_from_text (jd.getD "")).image pyLower else ∅) ∪
      (if optArgTruthy ti then (get_industry_skills (ti.getD "")).image pyLower else ∅) = ∅ <;>
    simp [h]

theorem overall_sandwich {f k c r : ℤ}
    (hf0 : 0 ≤ f) (hf1 : f ≤ 100) (hk0 : 0 ≤ k) (hk1 : k ≤ 100)
    (hc0 : 0 ≤ c) (hc1 : c ≤ 100) (hr0 : 0 ≤ r) (hr1 : r ≤ 100) :
    pyTrunc (0.25 * (f : ℚ) + 0.35 * (k : ℚ) + 0.25 * (c : ℚ) + 0.15 * (r : ℚ)) - 1 ≤
      _calculate_overall_ats_score f k c r ∧
    _calculate_overall_ats_score f k c r ≤
      pyTrunc (0.25 * (f : ℚ) + 0.35 * (k : ℚ) + 0.25 * (c : ℚ) + 0.15 * (r : ℚ)) := by
  obtain ⟨-, -, h3, h4⟩ := overall_float_key hf0 hf1 hk0 hk1 hc0 hc1 hr0 hr1
  have hq : 0.25 * (f : ℚ) + 0.35 * (k : ℚ) + 0.25 * (c : ℚ) + 0.15 * (r : ℚ) =
      ((5 * f + 7 * k + 5 * c + 3 * r : ℤ) : ℚ) / 20 := by
    push_cast
    ring
  have hfq : (0 : ℚ) ≤ (f : ℚ) := by exact_mod_cast hf0
  have hkq : (0 : ℚ) ≤ (k : ℚ) := by exact_mod_cast hk0
  have hcq : (0 : ℚ) ≤ (c : ℚ) := by exact_mod_cast hc0
  have hrq : (0 : ℚ) ≤ (r : ℚ) := by exact_mod_cast hr0
  have hnn : ¬ (0.25 * (f : ℚ) + 0.35 * (k : ℚ) + 0.25 * (c : ℚ) + 0.15 * (r : ℚ) < 0) := by
    push_neg
    nlinarith
  rw [pyTrunc, if_neg hnn, hq]
  exact ⟨h3, h4⟩

/-- C3 counterexample: at the reachable sub-score combination
`(f, k, c, r) = (0, 14, 30, 4)` the binary64 evaluation of
`0*0.25 + 14*0.35 + 30*0.25 + 4*0.15` is 12.999999999999998, so the code
returns `int(...) = 12`, while the exact weighted sum is 13 and truncates
to 13: the overall score is not the exact truncation claimed. -/
theorem C3_counterexample :
    _calculate_overall_ats_score 0 14 30 4 = 12 ∧
    pyTrunc (0.25 * ((0 : ℤ) : ℚ) + 0.35 * ((14 : ℤ) : ℚ) +
      0.25 * ((30 : ℤ) : ℚ) + 0.15 * ((4 : ℤ) : ℚ)) = 13 := by
  constructor
  · decide
  · norm_num [pyTrunc]

set_option maxHeartbeats 1600000 in
/-- C3 (amended): for every combination of formatting, keyword, content and
readability scores produced by the sub-analyses, the overall score is the
binary64 (double-precision) evaluation of `f*0.25 + k*0.35 + c*0.25 + r*0.15`
truncated with `int()`; it equals either the integer truncation of the exact
weighted sum or that value minus one. -/
theorem C3_overall_double_truncation (rc : Option Resume) (jd ti : Option String) :
    overallFromSubscores (analyze_resume rc jd ti) := by
  rcases rc with - | r
  · trivial
  · unfold analyze_resume
    dsimp only
    split_ifs with h1 h2
    · trivial
    · trivial
    all_goals
      exact ⟨rfl,
        (overall_sandwich (formatting_score_bounds r).1 (formatting_score_bounds r).2
          (analyze_keywords_score_bounds r jd ti).1 (analyze_keywords_score_bounds r jd ti).2
          (content_score_bounds r).1 (content_score_bounds r).2
          (readability_bounds _).1 (readability_bounds _).2).1,
        (overall_sandwich (formatting_score_bounds r).1 (formatting_score_bounds r).2
          (analyze_keywords_score_bounds r jd ti).1 (analyze_keywords_score_bounds r jd ti).2
          (content_score_bounds r).1 (content_score_bounds r).2
          (readability_bounds _).1 (readability_bounds _).2).2⟩

theorem mem_fmtBlock {x : ATSRecommendation} {fs : FormattingResult}
    (h : x ∈ fmtBlock fs) : x.priority = .high := by
  unfold fmtBlock at h
  split at h
  · obtain ⟨a, -, rfl⟩ := List.mem_map.mp h
    rfl
  · simp at h

theorem mem_kwBlock {x : ATSRecommendation} {ka : KeywordAnalysis}
    (h : x ∈ kwBlock ka) : x.priority = .high := by
  unfold kwBlock at h
  split at h
  · rw [List.mem_singleton.mp h]
  · simp at h

theorem mem_jobBlock {x : ATSRecommendation} {ka : KeywordAnalysis}
    (h : x ∈ jobBlock ka) : x.priority = .medium := by
  unfold jobBlock at h
  split at h
  · simp at h
  · split at h
    · rw [List.mem_singleton.mp h]
    · simp at h

theorem mem_wordCountBlock {x : ATSRecommendation} {ca : ContentResult}
    (h : x ∈ wordCountBlock ca) : x.priority = .medium := by
  unfold wordCountBlock at h
  split at h
  · rw [List.mem_singleton.mp h]
  · simp at h

theorem mem_readabilityBlock {x : ATSRecommendation} {rd : ℤ}
    (h : x ∈ readabilityBlock rd) : x.priority = .low := by
  unfold readabilityBlock at h
  split at h
  · rw [List.mem_singleton.mp h]
  · simp at h

theorem mem_verbBlock {x : ATSRecommendation} {ca : ContentResult}
    (h : x ∈ verbBlock ca) : x.priority = .low := by
  unfold verbBlock at h
  split at h
  · rw [List.mem_singleton.mp h]
  · simp at h

theorem prioritySorted_of_const {l : List ATSRecommendation} {c : PriorityLevel}
    (h : ∀ x ∈ l, x.priority = c) : prioritySorted l := by
  induction l with
  | nil => exact List.Pairwise.nil
  | cons a t ih =>
    refine List.Pairwise.cons (fun b hb => ?_) (ih fun x hx => h x (List.mem_cons_of_mem _ hx))
    rw [h a (List.mem_cons_self _ _), h b (List.mem_cons_of_mem _ hb)]

theorem prioritySorted_append {l₁ l₂ : List ATSRecommendation}
    (h₁ : prioritySorted l₁) (h₂ : prioritySorted l₂)
    (h : ∀ a ∈ l₁, ∀ b ∈ l₂, prioRank a.priority ≤ prioRank b.priority) :
    prioritySorted (l₁ ++ l₂) :=
  List.pairwise_append.mpr ⟨h₁, h₂, h⟩

/-- C4: for every résumé and every set of sub-score inputs, the generated
recommendation list has length at most 10 and its priorities are sorted
high before medium before low. -/
theorem C4_recommendations_bounded_sorted (fs : FormattingResult)
    (ka : KeywordAnalysis) (ca : ContentResult) (rd : ℤ) :
    (_generate_ats_recommendations fs ka ca rd).length ≤ 10 ∧
      prioritySorted (_generate_ats_recommendations fs ka ca rd) := by
  constructor
  · unfold _generate_ats_recommendations
    rw [List.length_take]
    omega
  · have hEF : prioritySorted (readabilityBlock rd ++ verbBlock ca) :=
      prioritySorted_append
        (prioritySorted_of_const fun x hx => mem_readabilityBlock hx)
        (prioritySorted_of_const fun x hx => mem_verbBlock hx)
        (fun a ha b hb => by rw [mem_readabilityBlock ha, mem_verbBlock hb])
    have hDEF : prioritySorted (wordCountBlock ca ++ (readabilityBlock rd ++ verbBlock ca)) :=
      prioritySorted_append
        (prioritySorted_of_const fun x hx => mem_wordCountBlock hx) hEF
        (fun a ha b hb => by
          rcases List.mem_append.mp hb with hb | hb
          · rw [mem_wordCountBlock ha, mem_readabilityBlock hb]; decide
          · rw [mem_wordCountBlock ha, mem_verbBlock hb]; decide)
    have hCDEF : prioritySorted (jobBlock ka ++
        (wordCountBlock ca ++ (readabilityBlock rd ++ verbBlock ca))) :=
      prioritySorted_append
        (prioritySorted_of_const fun x hx => mem_jobBlock hx) hDEF
        (fun a ha b hb => by
          rw [mem_jobBlock ha]
          rcases List.mem_append.mp hb with hb | hb
          · rw [mem_wordCountBlock hb]
          · rcases List.mem_append.mp hb with hb | hb
            · rw [mem_readabilityBlock hb]; decide
            · rw [mem_verbBlock hb]; decide)
    have hBF : prioritySorted (kwBlock ka ++ (jobBlock ka ++
        (wordCountBlock ca ++ (readabilityBlock rd ++ verbBlock ca)))) :=
      prioritySorted_append
        (prioritySorted_of_const fun x hx => mem_kwBlock hx) hCDEF
        (fun a ha b _ => by rw [mem_kwBlock ha]; exact Nat.zero_le _)
    have hAll : prioritySorted (fmtBlock fs ++ (kwBlock ka ++ (jobBlock ka ++
        (wordCountBlock ca ++ (readabilityBlock rd ++ verbBlock ca))))) :=
      prioritySorted_append
        (prioritySorted_of_const fun x hx => mem_fmtBlock hx) hBF
        (fun a ha b _ => by rw [mem_fmtBlock ha]; exact Nat.zero_le _)
    unfold _generate_ats_recommendations
    exact List.Pairwise.sublist (List.take_sublist _ _)
      (by simpa [List.append_assoc] using hAll)

/-- C5: `analyze_resume` fails exactly on structurally invalid input — an
invalid-input error when `resume_content` is empty or not a dict, an
empty-content error when the extracted text is blank — and on every dict
résumé with non-blank extracted text it returns a complete result,
regardless of which optional sections are missing. -/
theorem C5_error_behaviour (rc : Option Resume) (jd ti : Option String) :
    analyzeErrorSpec rc jd ti := by
  unfold analyzeErrorSpec analyze_resume
  match rc with
  | none => rfl
  | some r =>
    by_cases h1 : r.isEmptyDict
    · simp [h1]
    · by_cases h2 : pyStrip (_extract_resume_text r) = ""
      · simp [h1, h2]
      · simp [h1, h2, analysisOk]

/-- C9: adding a job keyword that already occurs among the résumé's
extracted keywords never decreases the job-match percentage computed by
`_analyze_keywords`: `(|matched|+1)/(|job|+1) ≥ |matched|/|job|` whenever
the added keyword matches. -/
theorem C9_job_match_monotone (rk jk : Finset String) (k : String)
    (hk : k ∈ rk) (hne : jk.Nonempty) :
    jobMatchPercent rk jk ≤ jobMatchPercent rk (insert k jk) := by
  by_cases hjk : k ∈ jk
  · rw [Finset.insert_eq_self.mpr hjk]
  · unfold jobMatchPercent
    have hj : 0 < jk.card := Finset.card_pos.mpr hne
    have hm : (rk ∩ jk).card ≤ jk.card :=
      Finset.card_le_card Finset.inter_subset_right
    rw [Finset.inter_insert_of_mem hk,
      Finset.card_insert_of_not_mem (fun hc => hjk (Finset.mem_inter.mp hc).2),
      Finset.card_insert_of_not_mem hjk]
    apply mul_le_mul_of_nonneg_right _ (by norm_num : (0 : ℚ) ≤ 100)
    rw [div_le_div_iff₀ (by exact_mod_cast hj) (by positivity)]
    have hm' : ((rk ∩ jk).card : ℚ) ≤ (jk.card : ℚ) := by exact_mod_cast hm
    push_cast
    nlinarith [hm']

/-- C9 witness: a concrete instance of the monotonicity theorem. -/
theorem C9_job_match_monotone_witness :
    jobMatchPercent {"a"} {"b"} ≤ jobMatchPercent {"a"} (insert "a" {"b"}) :=
  C9_job_match_monotone {"a"} {"b"} "a" (by decide) ⟨"b", by decide⟩

theorem pyLower_eq_empty_iff (s : String) : pyLower s = "" ↔ s = "" := by
  unfold pyLower
  constructor
  · intro h
    have hd : s.data.map Char.toLower = [] := congrArg String.data h
    have : s.data = [] := List.map_eq_nil_iff.mp hd
    cases s
    simp_all
  · intro h
    subst h
    rfl

theorem lower_filter_map (f : String → String)
    (hf : ∀ s, pyLower (f s) = pyLower s) (l : List String) :
    ((l.map f).filter (fun s => s ≠ "")).map pyLower =
      (l.filter (fun s => s ≠ "")).map pyLower := by
  simp only [ne_eq, decide_not]
  induction l with
  | nil => rfl
  | cons a t ih =>
    by_cases ha : a = ""
    · subst ha
      have hfa : f "" = "" := (pyLower_eq_empty_iff _).mp (by rw [hf]; rfl)
      simpa [hfa] using ih
    · have hfa : f a ≠ "" := fun hc =>
        ha ((pyLower_eq_empty_iff _).mp (by rw [← hf, hc]; rfl))
      simp [List.filter_cons, ha, hfa, ih, hf]

theorem skillPairs_map (f : String → String) (r : Resume) :
    (mapResumeSkills f r).skillPairs = r.skillPairs.map (fun p => (p.1, p.2.map f)) := by
  unfold mapResumeSkills Resume.skillPairs
  cases r.skills <;> rfl

theorem lower_flatMap (f : String → String)
    (hf : ∀ s, pyLower (f s) = pyLower s) (l : List (String × List String)) :
    ((l.map (fun p => (p.1, p.2.map f))).flatMap
      (fun p => p.2.filter (fun sk => sk ≠ ""))).map pyLower =
      (l.flatMap (fun p => p.2.filter (fun sk => sk ≠ ""))).map pyLower := by
  induction l with
  | nil => rfl
  | cons p t ih =>
    simp only [List.map_cons, List.flatMap_cons, List.map_append, ih]
    congr 1
    exact lower_filter_map f hf p.2

theorem currentSkills_map (f : String → String)
    (hf : ∀ s, pyLower (f s) = pyLower s) (r : Resume) :
    currentSkills (mapResumeSkills f r) = currentSkills r := by
  unfold currentSkills
  rw [skillPairs_map, lower_flatMap f hf r.skillPairs]

/-- C10: skill-gap comparison is case-insensitive at the public interface —
replacing every declared skill by any variant with the same lowercase form
leaves the returned `SkillGapAnalysis` unchanged, and concretely a résumé
skill declared as "Python" matches the required skill "python" and never
appears in `missing_skills`. -/
theorem C10_skill_gap_case_insensitive :
    (∀ (r : Resume) (jd ti : Option String) (f : String → String),
        (∀ s, pyLower (f s) = pyLower s) →
        _analyze_skill_gaps (mapResumeSkills f r) jd ti = _analyze_skill_gaps r jd ti) ∧
    ("python" ∈ (_analyze_skill_gaps sampleResumeP (some "python") none).matching_skills ∧
      "python" ∉ (_analyze_skill_gaps sampleResumeP (some "python") none).missing_skills) := by
  constructor
  · intro r jd ti f hf
    unfold _analyze_skill_gaps
    rw [currentSkills_map f hf r]
  · constructor <;> decide

/-- C10 witness: the invariance part applied at a concrete résumé and
transformation. -/
theorem C10_skill_gap_case_insensitive_witness :
    _analyze_skill_gaps (mapResumeSkills id sampleResumeP) (some "python") none =
      _analyze_skill_gaps sampleResumeP (some "python") none :=
  C10_skill_gap_case_insensitive.1 sampleResumeP (some "python") none id (fun _ => rfl)

theorem trend_last5 (h : List ScoreEntry) :
    _calculate_improvement_trend h =
      _calculate_improvement_trend (h.drop (h.length - 5)) := by
  by_cases h2 : h.length < 2
  · have h5 : h.length - 5 = 0 := by omega
    rw [h5, List.drop_zero]
  · have hlen : (h.drop (h.length - 5)).length = h.length - (h.length - 5) :=
      List.length_drop _ _
    unfold _calculate_improvement_trend
    rw [if_neg h2, if_neg (by omega : ¬ (h.drop (h.length - 5)).length < 2)]
    have h0 : (h.drop (h.length - 5)).length - 5 = 0 := by omega
    rw [h0, List.drop_zero]

set_option maxRecDepth 40000 in
/-- C6 counterexample: for the reachable history [7, 7, 38, 9, 16] the
exact ordinary-least-squares slope is exactly 2, so the claimed
classification (slope > 2 → "improving", else "stable") is "stable"; but
the code computes the slope in binary64, where it rounds to
2.0000000000000004 > 2, and returns "improving". -/
theorem C6_counterexample :
    _calculate_improvement_trend (mkHistory [7, 7, 38, 9, 16]) = "improving" ∧
    olsSlope [7, 7, 38, 9, 16] = 2 ∧
    specTrend (mkHistory [7, 7, 38, 9, 16]) = "stable" := by
  refine ⟨by decide, ?_, ?_⟩
  · unfold olsSlope
    norm_num [List.range_succ]
  · unfold specTrend mkHistory olsSlope
    norm_num [List.filterMap_cons, List.range_succ]

set_option maxRecDepth 40000 in
/-- C6 (amended): the trend classifier uses only the last ≤5 entries of a
score history, returns "neutral" when fewer than two scores are available,
and otherwise classifies the binary64 ordinary-least-squares slope of
score against index — "improving" above 2, "declining" below −2, "stable"
otherwise (including the degenerate zero-variance case, and with the
comparisons performed on the double-precision slope, which can differ from
the exact slope at the thresholds); in particular [50,50,50,50,50] is
stable, [40,45,50,55,60] improving, [60,55,50,45,40] declining, and a
single-entry history neutral. -/
theorem C6_trend_classifier :
    (∀ h, _calculate_improvement_trend h =
        _calculate_improvement_trend (h.drop (h.length - 5))) ∧
    _calculate_improvement_trend (mkHistory []) = "neutral" ∧
    (∀ e, _calculate_improvement_trend [e] = "neutral") ∧
    _calculate_improvement_trend (mkHistory [50, 50, 50, 50, 50]) = "stable" ∧
    _calculate_improvement_trend (mkHistory [40, 45, 50, 55, 60]) = "improving" ∧
    _calculate_improvement_trend (mkHistory [60, 55, 50, 45, 40]) = "declining" :=
  ⟨trend_last5, rfl, fun e => rfl, by decide, by decide, by decide⟩

theorem analyze_keywords_jmp (r : Resume) (jd : String) (ti : Option String)
    (hjd : jd ≠ "") (hne : extract_keywords (pyLower jd) ≠ ∅) :
    (_analyze_keywords r (some jd) ti).job_match_percentage =
      some (jobMatchPercent (extract_keywords (pyLower (_extract_resume_text r)))
        (extract_keywords (pyLower jd))) := by
  have hj : optArgTruthy (some jd) = true := by simpa [optArgTruthy] using hjd
  unfold _analyze_keywords
  simp [hj, hne]

theorem analyze_keywords_matched (r : Resume) (jd : String) (ti : Option String)
    (hjd : jd ≠ "") (hne : extract_keywords (pyLower jd) ≠ ∅) :
    (_analyze_keywords r (some jd) ti).matched_keywords =
      extract_keywords (pyLower (_extract_resume_text r)) ∩
        extract_keywords (pyLower jd) := by
  have hj : optArgTruthy (some jd) = true := by simpa [optArgTruthy] using hjd
  unfold _analyze_keywords
  simp [hj, hne]

theorem jdB_keywords_card :
    (extract_keywords (pyLower jdB)).card = 11 := by decide

theorem resumeB_matched_card :
    ((extract_keywords (pyLower (_extract_resume_text sampleResumeB))) ∩
      extract_keywords (pyLower jdB)).card = 5 := by decide

/-- C7 counterexample: for the Scenario B input (skills exactly python,
django, docker; the given job description) the claim fails — the job-match
percentage is not 100. -/
theorem C7_counterexample :
    ¬ (({"python", "django", "docker"} : Finset String) ⊆
        (_analyze_keywords sampleResumeB (some jdB) none).matched_keywords ∧
      (_analyze_keywords sampleResumeB (some jdB) none).job_match_percentage = some 100) := by
  rintro ⟨-, hpct⟩
  rw [analyze_keywords_jmp _ _ _ (by decide) (by decide)] at hpct
  have h := Option.some.inj hpct
  unfold jobMatchPercent at h
  rw [resumeB_matched_card, jdB_keywords_card] at h
  norm_num at h

/-- C7 amended: for the Scenario B input, `matched_keywords` does contain
python, django and docker, but the job description yields 11 extracted
keywords of which 5 are matched, so `job_match_percentage` is 500/11
(≈45.5), not 100. -/
theorem C7_amended :
    ({"python", "django", "docker"} : Finset String) ⊆
      (_analyze_keywords sampleResumeB (some jdB) none).matched_keywords ∧
    (_analyze_keywords sampleResumeB (some jdB) none).job_match_percentage =
      some (500 / 11) := by
  constructor
  · rw [analyze_keywords_matched _ _ _ (by decide) (by decide)]
    decide
  · rw [analyze_keywords_jmp _ _ _ (by decide) (by decide)]
    unfold jobMatchPercent
    rw [resumeB_matched_card, jdB_keywords_card]
    norm_num

theorem sqlC_matched_card :
    ((extract_keywords (pyLower (_extract_resume_text sampleResumeC))) ∩
      extract_keywords (pyLower "sql")).card = 0 := by decide

theorem sql_keywords_card :
    (extract_keywords (pyLower "sql")).card = 1 := by decide

theorem C8_ka_jmp_zero :
    (_analyze_keywords sampleResumeC (some "sql") none).job_match_percentage = some 0 := by
  rw [analyze_keywords_jmp _ _ _ (by decide) (by decide)]
  unfold jobMatchPercent
  rw [sqlC_matched_card, sql_keywords_card]
  norm_num

theorem C8_jobBlock_empty :
    jobBlock (_analyze_keywords sampleResumeC (some "sql") none) = [] := by
  unfold jobBlock
  rw [C8_ka_jmp_zero]
  dsimp only
  rw [if_neg (by norm_num)]

theorem mem_fmtBlock_cat {x : ATSRecommendation} {fs : FormattingResult}
    (h : x ∈ fmtBlock fs) : x.category = .formatting := by
  unfold fmtBlock at h
  split at h
  · obtain ⟨a, -, rfl⟩ := List.mem_map.mp h
    rfl
  · simp at h

theorem mem_kwBlock_cat {x : ATSRecommendation} {ka : KeywordAnalysis}
    (h : x ∈ kwBlock ka) : x.category = .keywords := by
  unfold kwBlock at h
  split at h
  · rw [List.mem_singleton.mp h]
  · simp at h

theorem mem_wordCountBlock_cat {x : ATSRecommendation} {ca : ContentResult}
    (h : x ∈ wordCountBlock ca) : x.category = .content := by
  unfold wordCountBlock at h
  split at h
  · rw [List.mem_singleton.mp h]
  · simp at h

theorem mem_readabilityBlock_cat {x : ATSRecommendation} {rd : ℤ}
    (h : x ∈ readabilityBlock rd) : x.category = .readability := by
  unfold readabilityBlock at h
  split at h
  · rw [List.mem_singleton.mp h]
  · simp at h

theorem mem_verbBlock_cat {x : ATSRecommendation} {ca : ContentResult}
    (h : x ∈ verbBlock ca) : x.category = .content := by
  unfold verbBlock at h
  split at h
  · rw [List.mem_singleton.mp h]
  · simp at h

theorem countP_job_match_zero (fs : FormattingResult) (ka : KeywordAnalysis)
    (ca : ContentResult) (rd : ℤ) (hj : jobBlock ka = []) :
    (_generate_ats_recommendations fs ka ca rd).countP
      (fun rec => decide (rec.category = RecommendationCategory.job_match)) = 0 := by
  unfold _generate_ats_recommendations
  rw [hj]
  rw [List.countP_eq_zero]
  intro x hx
  have hx' := List.mem_of_mem_take hx
  simp only [List.append_nil, List.mem_append] at hx'
  rcases hx' with ((((h | h) | h) | h) | h)
  · simp [mem_fmtBlock_cat h]
  · simp [mem_kwBlock_cat h]
  · simp [mem_wordCountBlock_cat h]
  · simp [mem_readabilityBlock_cat h]
  · simp [mem_verbBlock_cat h]

/-- C8: a job match percentage of 0.0 is reachable (résumé skill "zzzz"
versus job description "sql"), it is present and below 60, yet the
recommendation generator emits no job-match recommendation for it, because
the source condition `job_match_percentage and … < 60` treats 0.0 as falsy
under Python truthiness. -/
theorem C8_zero_match_skips_job_rec :
    (_analyze_keywords sampleResumeC (some "sql") none).job_match_percentage = some 0 ∧
    ((0 : ℚ) < 60) ∧
    ((analyze_resume (some sampleResumeC) (some "sql") none).toOption.map
        (fun res => res.job_match_percentage)) = some (some 0) ∧
    (∀ fs ca rd, (_generate_ats_recommendations fs
        (_analyze_keywords sampleResumeC (some "sql") none) ca rd).countP
        (fun rec => decide (rec.category = RecommendationCategory.job_match)) = 0) := by
  refine ⟨C8_ka_jmp_zero, by norm_num, ?_,
    fun fs ca rd => countP_job_match_zero _ _ _ _ C8_jobBlock_empty⟩
  unfold analyze_resume
  dsimp only
  rw [if_neg (by decide), if_neg (by decide)]
  have hj : optArgTruthy (some "sql") = true := by decide
  simp only [Except.toOption, Option.map, hj, if_true]
  rw [C8_ka_jmp_zero]

end ATS
